import Mathlib

/-!
# InputAndParamNodes.h: leaf nodes and the embedding lookup node

A shallow embedding of `Source/ComputationNetworkLib/InputAndParamNodes.h`.

Conventions of the embedding.

* Matrix elements (`ElemType`, float or double in the source) and the arithmetic of
  the matrix library on them are parameters of the section `The lookup node for an
  arbitrary element type`, which carries the statements about the values the lookup
  node computes. The other sections fix the elements to exact integers: their
  statements are about dimensions, errors, and values that float and double hold
  exactly.
* `size_t` is 64 bit and `int` is 32 bit; the arithmetic the source performs on
  dimensions is written with the explicit conversions `narrowToInt`, `toSizeT` and the
  wrapping product `mulSizeT`.
* A function that can throw returns the error it raised together with the state it
  leaves behind, so that what has and has not been written is visible.
* `assert` checks its condition unless the build defines `NDEBUG`; the build is a
  parameter of the functions that use it.
* The matrix library (`Matrix.h`), `TensorShape.h` and `ComputationNode.h` are not part
  of the sources; the operations the nodes call are modelled and marked as such.
-/

namespace CNTK

/-! ## Errors and machine integers -/

/-- The ways a call can fail: the `LogicError` and `InvalidArgument` helpers, a failed
`assert` (in a build that checks assertions), and the undefined behaviours the code can
run into: an integer division by zero, a write past a fixed-size buffer, an `int`
incremented past its largest value, and a read of a buffer nothing was written to. -/
inductive Err where
  | logicError
  | invalidArgument
  | assertionFailure
  | divideByZero
  | bufferOverrun
  | signedOverflow
  | uninitializedRead
  deriving DecidableEq, Repr

/-- Conversion of a `size_t` value to `int` (as in `int w = rows1 / cols0;`):
reduction modulo 2^32, read as a two's complement number. -/
def narrowToInt (n : Nat) : Int :=
  if n % 2 ^ 32 < 2 ^ 31 then ((n % 2 ^ 32 : Nat) : Int)
  else ((n % 2 ^ 32 : Nat) : Int) - 2 ^ 32

/-- Conversion of an `int` operand to `size_t` in mixed arithmetic: reduction modulo 2^64. -/
def toSizeT (z : Int) : Nat := (z % 2 ^ 64).toNat

/-- Product of two `size_t` values. -/
def mulSizeT (a b : Nat) : Nat := (a * b) % 2 ^ 64

/-- Sum of `f 0 + ... + f (n-1)`, the inner loop of a dense product. -/
def sumTo (f : Nat → Int) : Nat → Int
  | 0 => 0
  | n + 1 => sumTo f n + f n

/-! ## The matrix library, as far as the nodes use it -/

/-- Modelled from the spec: the `Matrix` class (Matrix.h) is not part of the sources.
A dense matrix is a contiguous buffer with a row and a column count, and a reshape
reinterprets the same buffer. Element `(i, j)` lives at offset `j * numRows + i`, so a
column is contiguous: the source keeps the words of one sample one after the other in
one column ("input 1 contains m_nbrLooked words in each column (sample)"), and only
with contiguous columns does the reshape to `(rows1 / w, cols1 * w)` "flatten per-sample
word-stacking into extra batch columns", one word per column. For one word per sample
the reshape is the identity and the layout plays no role. -/
structure Matrix where
  numRows : Nat
  numCols : Nat
  data : Nat → Int

namespace Matrix

/-- Element `(i, j)`, the source's `m(i, j)`. -/
def get (m : Matrix) (i j : Nat) : Int := m.data (j * m.numRows + i)

/-- The dimensions and the element count are `size_t` values. -/
def Valid (m : Matrix) : Prop :=
  m.numRows < 2 ^ 64 ∧ m.numCols < 2 ^ 64 ∧ m.numRows * m.numCols < 2 ^ 64

/-- Modelled from the spec: `Resize` followed by `SetValue(0)`; a fresh all-zero matrix. -/
def zeros (r c : Nat) : Matrix := { numRows := r, numCols := c, data := fun _ => 0 }

/-- Modelled from the spec: `SetValue(v)`, every element becomes `v`. -/
def SetValue (m : Matrix) (v : Int) : Matrix :=
  { m with data := fun o => if o < m.numRows * m.numCols then v else m.data o }

/-- Modelled from the spec: `SetValue(i, j, v)`, one element becomes `v`. -/
def SetValueAt (m : Matrix) (i j : Nat) (v : Int) : Matrix :=
  { m with data := fun o => if o = j * m.numRows + i then v else m.data o }

/-- Modelled from the spec: `Reshaped(r, c)` and `Reshape(r, c)`; a zero-copy
reinterpretation of the same buffer, legal only when the element count is unchanged. -/
def Reshaped (m : Matrix) (r c : Nat) : Except Err Matrix :=
  if r * c = m.numRows * m.numCols then .ok { numRows := r, numCols := c, data := m.data }
  else .error .invalidArgument

/-- Rows of `op(m)`, where `op` is the identity or the transpose. -/
def opRows (m : Matrix) (transpose : Bool) : Nat := if transpose then m.numCols else m.numRows

/-- Columns of `op(m)`. -/
def opCols (m : Matrix) (transpose : Bool) : Nat := if transpose then m.numRows else m.numCols

/-- Element `(i, j)` of `op(m)`. -/
def opGet (m : Matrix) (transpose : Bool) (i j : Nat) : Int :=
  if transpose then m.get j i else m.get i j

/-- Entry `(i, j)` of the dense product `op(a) * op(b)`. -/
def productEntry (a : Matrix) (transposeA : Bool) (b : Matrix) (transposeB : Bool)
    (i j : Nat) : Int :=
  sumTo (fun t => a.opGet transposeA i t * b.opGet transposeB t j) (a.opCols transposeA)

/-- Modelled from the spec: `c.AssignProductOf(a, transposeA, b, transposeB)`, the
"single dense matrix product"; `c` becomes `op(a) * op(b)` and takes the size of the
product (a target that already has that size, as the views of the lookup node do, keeps
its buffer). The inner dimensions must agree. -/
def AssignProductOf (c a : Matrix) (transposeA : Bool) (b : Matrix) (transposeB : Bool) :
    Except Err Matrix :=
  if a.opCols transposeA ≠ b.opRows transposeB then .error .invalidArgument
  else
    .ok { numRows := a.opRows transposeA
          numCols := b.opCols transposeB
          data := fun o =>
            if o < a.opRows transposeA * b.opCols transposeB then
              productEntry a transposeA b transposeB (o % a.opRows transposeA)
                (o / a.opRows transposeA)
            else c.data o }

/-- Modelled from the spec: `MultiplyAndAdd(a, transposeA, b, transposeB, c)`, which
"accumulates" the product into `c`: `c` becomes `c + op(a) * op(b)`. The inner
dimensions must agree and `c` must already have the size of the product. -/
def MultiplyAndAdd (a : Matrix) (transposeA : Bool) (b : Matrix) (transposeB : Bool)
    (c : Matrix) : Except Err Matrix :=
  if a.opCols transposeA ≠ b.opRows transposeB then .error .invalidArgument
  else if c.numRows ≠ a.opRows transposeA ∨ c.numCols ≠ b.opCols transposeB then
    .error .logicError
  else
    .ok { c with data := fun o =>
            if o < c.numRows * c.numCols then
              c.data o + productEntry a transposeA b transposeB (o % c.numRows) (o / c.numRows)
            else c.data o }

/-- Modelled from the spec: masking of gaps; the columns the minibatch layout marks as
padding are set to zero, the other columns are left as they are. -/
def MaskGaps (isGap : Nat → Bool) (m : Matrix) : Matrix :=
  { m with data := fun o =>
      if o < m.numRows * m.numCols ∧ isGap (o / m.numRows) = true then 0 else m.data o }

end Matrix

/-! ## TensorShape, as far as the input nodes use it -/

/-- Modelled from the spec: `TensorShape` (TensorShape.h) is not part of the sources.
A sample layout is its list of dimensions. -/
structure TensorShape where
  dims : List Nat
  deriving DecidableEq, Repr

namespace TensorShape

/-- Modelled from the spec: the element count of a layout, "the product of the
sample-layout dimensions". -/
def GetNumElements (s : TensorShape) : Nat := s.dims.prod

/-- Modelled from the spec: `TensorShape(rows)`, the "flat vector shape inferred from the
row count". -/
def vector (rows : Nat) : TensorShape := ⟨[rows]⟩

end TensorShape

/-! ## LookupTableNode -/

namespace LookupTableNode

/-- `LookupTableNode::ForwardProp`, on the three matrices it starts from:
`functionValues = ValueFor(t)`, `input0 = Input(0)->ValueAsMatrix()` and
`input1 = Input(1)->ValueFor(t)`. Returns the error raised, if any, and the content of
the output slice after the call. The reshaped matrices are views: the product is
written into the buffer of the output slice, whose own dimensions stay as declared. -/
def ForwardProp (functionValues input0 input1 : Matrix) : Option Err × Matrix :=
  let rows1 := input1.numRows
  let cols1 := input1.numCols
  let cols0 := input0.numCols
  if cols0 = 0 then (some .divideByZero, functionValues)
  else
    let wordsInEachSample : Int := narrowToInt (rows1 / cols0)
    if mulSizeT cols0 (toSizeT wordsInEachSample) ≠ rows1 then
      (some .logicError, functionValues)
    else if toSizeT wordsInEachSample = 0 then (some .divideByZero, functionValues)
    else
      match input1.Reshaped (rows1 / toSizeT wordsInEachSample)
          (mulSizeT cols1 (toSizeT wordsInEachSample)) with
      | .error e => (some e, functionValues)
      | .ok input1Reshaped =>
        match functionValues.Reshaped input0.numRows input1Reshaped.numCols with
        | .error e => (some e, functionValues)
        | .ok functionValuesReshaped =>
          match functionValuesReshaped.AssignProductOf input0 false input1Reshaped false with
          | .error e => (some e, functionValues)
          | .ok product => (none, { functionValues with data := product.data })

/-- The three matrices `BackpropToLeft` and `BackpropToRight` receive by reference. -/
structure BackpropArgs where
  inputFunctionValues : Matrix
  inputGradientValues : Matrix
  gradientValues : Matrix

/-- `LookupTableNode::BackpropToLeft`: the gradient of the embedding matrix.
`inputFunctionValues` is the (masked) value of input 1, `inputGradientValues` the
gradient of input 0, `gradientValues` the (masked) gradient of the output. -/
def BackpropToLeft (a : BackpropArgs) : Option Err × BackpropArgs :=
  let rows1 := a.inputFunctionValues.numRows
  let cols1 := a.inputFunctionValues.numCols
  let rowsp := a.gradientValues.numRows
  let colsp := a.gradientValues.numCols
  if a.inputGradientValues.numCols = 0 then (some .divideByZero, a)
  else
    let wordsInEachSample : Int := narrowToInt (rows1 / a.inputGradientValues.numCols)
    if toSizeT wordsInEachSample = 0 then (some .divideByZero, a)
    else
      match a.inputFunctionValues.Reshaped (rows1 / toSizeT wordsInEachSample)
          (mulSizeT cols1 (toSizeT wordsInEachSample)) with
      | .error e => (some e, a)
      | .ok x =>
        match a.gradientValues.Reshaped (rowsp / toSizeT wordsInEachSample)
            (mulSizeT colsp (toSizeT wordsInEachSample)) with
        | .error e => (some e, { a with inputFunctionValues := x })
        | .ok g =>
          match Matrix.MultiplyAndAdd g false x true a.inputGradientValues with
          | .error e => (some e, ⟨x, a.inputGradientValues, g⟩)
          | .ok grad =>
            match x.Reshaped rows1 cols1 with
            | .error e => (some e, ⟨x, grad, g⟩)
            | .ok x1 =>
              match g.Reshaped rowsp colsp with
              | .error e => (some e, ⟨x1, grad, g⟩)
              | .ok g1 => (none, ⟨x1, grad, g1⟩)

/-- `LookupTableNode::BackpropToRight`: the gradient of the index input.
`inputFunctionValues` is the value of input 0 (the embedding matrix),
`inputGradientValues` the gradient of input 1, `gradientValues` the gradient of the
output. -/
def BackpropToRight (a : BackpropArgs) : Option Err × BackpropArgs :=
  let rows1 := a.inputGradientValues.numRows
  let cols1 := a.inputGradientValues.numCols
  let rowsp := a.gradientValues.numRows
  let colsp := a.gradientValues.numCols
  if a.inputFunctionValues.numCols = 0 then (some .divideByZero, a)
  else
    let wordsInEachSample : Int := narrowToInt (rows1 / a.inputFunctionValues.numCols)
    if toSizeT wordsInEachSample = 0 then (some .divideByZero, a)
    else
      match a.inputGradientValues.Reshaped (rows1 / toSizeT wordsInEachSample)
          (mulSizeT cols1 (toSizeT wordsInEachSample)) with
      | .error e => (some e, a)
      | .ok d =>
        match a.gradientValues.Reshaped (rowsp / toSizeT wordsInEachSample)
            (mulSizeT colsp (toSizeT wordsInEachSample)) with
        | .error e => (some e, { a with inputGradientValues := d })
        | .ok g =>
          match Matrix.MultiplyAndAdd a.inputFunctionValues true g false d with
          | .error e => (some e, ⟨a.inputFunctionValues, d, g⟩)
          | .ok grad =>
            match grad.Reshaped rows1 cols1 with
            | .error e => (some e, ⟨a.inputFunctionValues, grad, g⟩)
            | .ok grad1 =>
              match g.Reshaped rowsp colsp with
              | .error e => (some e, ⟨a.inputFunctionValues, grad1, g⟩)
              | .ok g1 => (none, ⟨a.inputFunctionValues, grad1, g1⟩)

end LookupTableNode

/-- What `LookupTableNode::BackpropTo` reads and writes for a frame range `t`: the value
and gradient of the two inputs, the node's own gradient, and the padding columns of the
minibatch layouts of input 1 and of the node (column `j` of the slice is a gap when the
predicate holds). -/
structure LookupTableNode where
  input0Value : Matrix
  input0Gradient : Matrix
  input1Value : Matrix
  input1Gradient : Matrix
  gradient : Matrix
  input1Gaps : Nat → Bool
  gaps : Nat → Bool

namespace LookupTableNode

/-- `LookupTableNode::BackpropTo`. `MaskedValueFor` and `MaskedGradientFor` zero the
padding columns in place and return the slice. The slices are views: reshaping one
stays local to the call, while what is written into its buffer is seen by the node.
`Input(0)->GradientAsMatrix()` is the gradient matrix of input 0 itself. -/
def BackpropTo (inputIndex : Nat) (n : LookupTableNode) : Option Err × LookupTableNode :=
  if inputIndex = 0 then
    let sliceInput1Value := n.input1Value.MaskGaps n.input1Gaps
    let sliceOutputGrad := n.gradient.MaskGaps n.gaps
    let r := BackpropToLeft ⟨sliceInput1Value, n.input0Gradient, sliceOutputGrad⟩
    (r.1, { n with input1Value := sliceInput1Value
                   gradient := sliceOutputGrad
                   input0Gradient := r.2.inputGradientValues })
  else if inputIndex = 1 then
    let r := BackpropToRight ⟨n.input0Value, n.input1Gradient, n.gradient⟩
    (r.1, { n with input1Gradient := { n.input1Gradient with
                                       data := r.2.inputGradientValues.data } })
  else (none, n)

/-- What `Validate` declares through `SetDims(sampleLayout, isMinibatch)`. -/
structure DeclaredDims where
  sampleLayout : TensorShape
  isMinibatch : Bool
  deriving DecidableEq, Repr

/-- `LookupTableNode::Validate`, after `Base::Validate` and
`InferMBLayoutFromInputsForStandardCase` have run: `hasMBLayout` is `HasMBLayout()` at
that point, `rows0 x cols0` are the matrix dimensions of input 0 and `rows1` is
`Input(1)->GetSampleMatrixNumRows()`. On success the result is what `SetDims` receives:
the one-dimensional shape `TensorShape(rows0 * wordsInEachSample)` and `true`. -/
def Validate (isFinalValidationPass hasMBLayout : Bool) (rows0 cols0 rows1 : Nat) :
    Except Err DeclaredDims :=
  if isFinalValidationPass = true ∧ hasMBLayout = false then .error .invalidArgument
  else if isFinalValidationPass = true ∧ cols0 = 0 then .error .divideByZero
  else if isFinalValidationPass = true ∧ rows1 % cols0 ≠ 0 then .error .invalidArgument
  else if cols0 = 0 then .error .divideByZero
  else
    let wordsInEachSample := rows1 / cols0
    .ok { sampleLayout := TensorShape.vector (mulSizeT rows0 wordsInEachSample), isMinibatch := true }

/-- The self-test's embedding matrix: `SetDims1(nInput, nHidden)` with `nInput = 2`,
`nHidden = 3`, then `SetValue(1.0)`. -/
def unitTestInput0 : Matrix := (Matrix.zeros 2 3).SetValue 1

/-- The self-test's index input with `cols` columns: all zero, then `(0,0)` set to 1
and `(1,1)` set to 2. The source uses `cols = nOutput = 3`. -/
def unitTestInput1 (cols : Nat) : Matrix :=
  (((Matrix.zeros 3 cols).SetValue 0).SetValueAt 0 0 1).SetValueAt 1 1 2

/-- The self-test's state before the two `BackpropTo` calls: output gradient
`nInput x nOutput` all ones, both input gradients resized to the input values and set
to zero; there is no padding. -/
def unitTestNode (cols : Nat) : LookupTableNode where
  input0Value := unitTestInput0
  input0Gradient := (Matrix.zeros 2 3).SetValue 0
  input1Value := unitTestInput1 cols
  input1Gradient := (Matrix.zeros 3 cols).SetValue 0
  gradient := (Matrix.zeros 2 cols).SetValue 1
  input1Gaps := fun _ => false
  gaps := fun _ => false

end LookupTableNode

/-! ## InputValueBase -/

/-- The state of an input node that `Init`, `Load` and `UpdateFunctionMBSize` touch.
`valueSharable` is cleared by `MarkValueNonSharable`, `valueIsSparse` is set by
`ConvertToSparseMatrix`, and the learning-rate multiplier (a float in the source) only
ever takes the value 0 here. -/
structure InputValueBase where
  m_isSparse : Bool
  m_sampleLayout : TensorShape
  hasMBLayout : Bool
  value : Matrix
  valueIsSparse : Bool
  valueSharable : Bool
  learningRateMultiplier : Int

namespace InputValueBase

/-- Modelled from the spec: `UpdateFunctionValuesSize` "eagerly resizes the value buffer"
to the declared sample layout; the number of columns is the minibatch's and is left as
it is. -/
def UpdateFunctionValuesSize (n : InputValueBase) : InputValueBase :=
  { n with value := { n.value with numRows := n.m_sampleLayout.GetNumElements } }

/-- `InputValueBase::Init`. -/
def Init (n : InputValueBase) (sampleLayout : TensorShape) (isSparse : Bool) : InputValueBase :=
  let n1 := { n with m_isSparse := isSparse, valueSharable := false }
  let n2 := if isSparse then { n1 with valueIsSparse := true } else n1
  let n3 := { n2 with m_sampleLayout := sampleLayout }
  let n4 := n3.UpdateFunctionValuesSize
  { n4 with learningRateMultiplier := 0 }

/-- What `Save` writes and `Load` reads after the base class part: the two legacy size
fields and the sample layout. -/
structure Serialized where
  rows : Nat
  colsDummy : Nat
  sampleLayout : TensorShape
  deriving DecidableEq, Repr

/-- `InputValueBase::Load`, after `Base::Load` has read the base class part. Returns the
node after the call and whether the warning about an inconsistent serialized sample
layout was printed. -/
def Load (n : InputValueBase) (f : Serialized) : InputValueBase × Bool :=
  let rows := f.rows
  let sampleLayout := f.sampleLayout
  if rows ≠ 0 ∧ rows ≠ sampleLayout.GetNumElements then
    (n.Init (TensorShape.vector rows) n.m_isSparse, true)
  else
    (n.Init sampleLayout n.m_isSparse, false)

/-- `InputValueBase::UpdateFunctionMBSize`. -/
def UpdateFunctionMBSize (n : InputValueBase) : Option Err × InputValueBase :=
  if n.value.numRows ≠ n.m_sampleLayout.GetNumElements then (some .logicError, n)
  else (none, n)

end InputValueBase

/-! ## EnvironmentInputNode -/

/-- The state of an environment input node: the property name and the value matrix. -/
structure EnvironmentInputNode where
  m_propertyName : String
  value : Matrix

namespace EnvironmentInputNode

/-- `EnvironmentInputNode::ReadOutVariable`. `isTraining` is what
`Environment().IsTraining()` returns at the moment of the call; the cast to `ElemType`
turns `true` into 1 and `false` into 0. -/
def ReadOutVariable (isTraining : Bool) (n : EnvironmentInputNode) : Except Err Int :=
  if n.m_propertyName = "isTraining" then .ok (if isTraining then 1 else 0)
  else .error .invalidArgument

/-- `EnvironmentInputNode::IsOutOfDateWrtInputs`. -/
def IsOutOfDateWrtInputs (_n : EnvironmentInputNode) : Bool := true

/-- Modelled from the spec: `VerifySize(rows, cols)` of the matrix library, a logic
error unless the matrix has exactly that size. -/
def VerifySize (m : Matrix) (rows cols : Nat) : Option Err :=
  if m.numRows ≠ rows ∨ m.numCols ≠ cols then some .logicError else none

/-- `EnvironmentInputNode::ForwardPropNonLooping`. -/
def ForwardPropNonLooping (isTraining : Bool) (n : EnvironmentInputNode) :
    Option Err × EnvironmentInputNode :=
  match ReadOutVariable isTraining n with
  | .error e => (some e, n)
  | .ok val =>
    match VerifySize n.value 1 1 with
    | some e => (some e, n)
    | none => (none, { n with value := n.value.SetValue val })

end EnvironmentInputNode

/-! ## LearnableParameter: the senone map -/

/-- A `map<string, int>`: keys with their values, each key at most once. The order of
the list is the order of first insertion, not the map's iteration order. -/
abbrev SenoneMap := List (String × Int)

namespace SenoneMap

/-- The method `count(key)` of `std::map`: 1 when the key is present, else 0. -/
def count (m : SenoneMap) (key : String) : Nat :=
  if m.any (fun e => e.1 == key) then 1 else 0

/-- The assignment `m[key] = v` of `std::map`: overwrites the value of a present key,
inserts an absent one. -/
def assign (m : SenoneMap) (key : String) (v : Int) : SenoneMap :=
  if m.any (fun e => e.1 == key) then m.map (fun e => if e.1 == key then (key, v) else e)
  else m ++ [(key, v)]

/-- Lookup of a key (`find`). -/
def find (m : SenoneMap) (key : String) : Option Int :=
  (m.find? (fun e => e.1 == key)).map (fun e => e.2)

end SenoneMap

namespace LearnableParameter

/-- The effect of `p = strchr(buff, '.'); if (p) *p = '_';`: the first dot, if there is
one, becomes an underscore. -/
def replaceFirstDot : List Char → List Char
  | [] => []
  | c :: cs => if c = '.' then '_' :: cs else c :: replaceFirstDot cs

/-- The map key built for a label: `"[" + sn + "]"` after the dot replacement. -/
def senoneKey (label : String) : String :=
  "[" ++ String.mk (replaceFirstDot label.data) ++ "]"

/-- The loop of `Read_senone_map` over the labels `fscanf(fin, "%s", buff)` still has to
deliver, with the current `snum` and map. `buff` holds 1000 bytes, so a label of 1000
bytes or more is written past its end. With `ndebug` (the build defines `NDEBUG`) the
`assert` is compiled out. -/
def readSenoneLoop (ndebug : Bool) : List String → Int → SenoneMap → Except Err SenoneMap
  | [], _, idx4senone => .ok idx4senone
  | label :: rest, snum, idx4senone =>
    if 1000 ≤ label.utf8ByteSize then .error .bufferOverrun
    else
      let sn := senoneKey label
      if ndebug = false ∧ idx4senone.count sn ≠ 0 then .error .assertionFailure
      else if snum = 2 ^ 31 - 1 then .error .signedOverflow
      else readSenoneLoop ndebug rest (snum + 1) (idx4senone.assign sn snum)

/-- `LearnableParameter::Read_senone_map` on an opened file whose whitespace-separated
labels are `labels`, in file order. -/
def Read_senone_map (ndebug : Bool) (labels : List String) (idx4senone : SenoneMap) :
    Except Err SenoneMap :=
  readSenoneLoop ndebug labels 0 idx4senone

/-- The keys still to be entered are pairwise different and none is in the map yet. -/
def FreshKeys (m : SenoneMap) (keys : List String) : Prop :=
  keys.Nodup ∧ ∀ k ∈ keys, k ∉ m.map Prod.fst

end LearnableParameter

/-! ## LearnableParameter: the arc file -/

namespace SenoneMap

/-- The expression `m[key]` of `std::map` read as a value: the value of a present key;
an absent key is inserted with the value 0, which is then the result. -/
def subscript (m : SenoneMap) (key : String) : Int × SenoneMap :=
  match m.find key with
  | some v => (v, m)
  | none => (0, m ++ [(key, 0)])

end SenoneMap

namespace LearnableParameter

/-- One arc as `LoadTfstFile` stores it (`struct DataArc`). `To` is `none` while the
field has not been assigned. `Cost` is `10^(-x)` in floating point; the model keeps the
field `x` was read from, and `none` for the exponent 0. -/
structure DataArc where
  From : Int
  To : Option Int
  Senone : Int
  Cost : Option String
  deriving DecidableEq, Repr

/-- The two conversions of the C++ standard library that `LoadTfstFile` calls, as
parameters: the value `std::stoi` returns or the exception it throws, and the exception
`std::stof` throws, if any. -/
structure Conversions where
  stoi : String → Except Err Int
  stof : String → Option Err

/-- White space as `sscanf` sees it: the blank and the control characters 9 to 13. -/
def isSpace (c : Char) : Bool := c.toNat = 32 || (9 ≤ c.toNat && c.toNat ≤ 13)

/-- The fields of the characters still to be scanned, `cur` being the reversed field
under way. -/
def fieldsAux : List Char → List Char → List String
  | [], cur => if cur.isEmpty then [] else [String.mk cur.reverse]
  | c :: cs, cur =>
    if isSpace c then
      if cur.isEmpty then fieldsAux cs [] else String.mk cur.reverse :: fieldsAux cs []
    else fieldsAux cs (c :: cur)

/-- The white-space separated fields of a line, in order: what the conversions `%s` of
`sscanf` deliver one after the other. -/
def fieldsOf (line : String) : List String := fieldsAux line.data []

/-- What `LoadTfstFile` builds up: the arc list `input`, `maxstate`, and the senone map
it received by reference. -/
structure TfstState where
  input : List DataArc
  maxstate : Int
  idx4senone : SenoneMap
  deriving DecidableEq, Repr

/-- The end of the loop body: `input.push_back(arc)` and the update of `maxstate`. -/
def pushArc (arc : DataArc) (s : TfstState) : TfstState :=
  { s with input := s.input ++ [arc]
           maxstate := if arc.From > s.maxstate then arc.From else s.maxstate }

/-- The body of the loop of `LoadTfstFile` for one line that is not a comment.
`sscanf(line, "%s %s %s %s", f1, f2, f3, f4)` fills at most four buffers of 100 bytes,
so a field of 100 bytes or more is written past the end of its buffer, and on a line
without any field `f1` is read although nothing was written to it. With `ndebug` (the
build defines `NDEBUG`) the two `assert`s are compiled out. -/
def loadTfstLine (ndebug : Bool) (conv : Conversions) (line : String) (s : TfstState) :
    Option Err × TfstState :=
  let fields := (fieldsOf line).take 4
  if fields.any (fun f => 100 ≤ f.utf8ByteSize) then (some .bufferOverrun, s)
  else
    match fields with
    | [] => (some .uninitializedRead, s)
    | f1 :: more =>
      match conv.stoi f1 with
      | .error e => (some e, s)
      | .ok arcFrom =>
        match more with
        | [] => (none, pushArc ⟨arcFrom, none, -1, none⟩ s)
        | [f2] =>
          match conv.stof f2 with
          | some e => (some e, s)
          | none => (none, pushArc ⟨arcFrom, none, -1, some f2⟩ s)
        | f2 :: f3 :: last =>
          if ndebug = false ∧ f3.data.head? ≠ some '[' then (some .assertionFailure, s)
          else
            match conv.stoi f2 with
            | .error e => (some e, s)
            | .ok arcTo =>
              match (match last with
                     | [] => none
                     | f4 :: _ => conv.stof f4) with
              | some e => (some e, s)
              | none =>
                if ndebug = false ∧ s.idx4senone.count f3 = 0 then (some .assertionFailure, s)
                else
                  let r := s.idx4senone.subscript f3
                  (none, pushArc ⟨arcFrom, some arcTo, r.1, last.head?⟩
                    { s with idx4senone := r.2 })

/-- The loop of `LoadTfstFile` over the lines `fgets` still has to deliver. -/
def loadTfstLoop (ndebug : Bool) (conv : Conversions) :
    List String → TfstState → Option Err × TfstState
  | [], s => (none, s)
  | line :: rest, s =>
    if line.data.head? = some '#' then loadTfstLoop ndebug conv rest s
    else
      match loadTfstLine ndebug conv line s with
      | (some e, s1) => (some e, s1)
      | (none, s1) => loadTfstLoop ndebug conv rest s1

/-- `LearnableParameter::LoadTfstFile` on an opened file whose lines, as `fgets`
delivers them, are `lines`. Returns the error raised, if any, and the arc list,
`maxstate` and the senone map as the call leaves them. -/
def LoadTfstFile (ndebug : Bool) (conv : Conversions) (lines : List String)
    (idx4senone : SenoneMap) : Option Err × TfstState :=
  loadTfstLoop ndebug conv lines ⟨[], 0, idx4senone⟩

/-- Following the words of the spec: the `.` to `_` normalization read as replacing
every dot of the label. -/
def replaceEveryDot (label : List Char) : List Char :=
  label.map (fun c => if c = '.' then '_' else c)

end LearnableParameter

/-! ## InputValueBase: the file -/

namespace InputValueBase

end InputValueBase

/-! ## The lookup node for an arbitrary element type

`LookupTableNode<ElemType>` is instantiated for `float` and for `double`, whose sums
and products are rounded. The definitions of this section take the element type and the
arithmetic of the matrix library as parameters, and carry the statements about the
values the node computes. They follow the source line by line, exactly as the
definitions of the section `LookupTableNode` do; those fix the elements to exact
integers and carry the statements about dimensions, errors and the integer-valued
self-test, and they are the instance `exactArithmetic` of the definitions here. -/

namespace Generic

/-- Modelled from the spec: `Matrix<ElemType>` (Matrix.h is not part of the sources), a
contiguous buffer of elements with a row and a column count; element `(i, j)` lives at
offset `j * numRows + i`, so a column is contiguous, as the source's "input 1 contains
m_nbrLooked words in each column (sample)" and its reshape require. -/
structure Matrix (ElemType : Type) where
  numRows : Nat
  numCols : Nat
  data : Nat → ElemType

/-- The element arithmetic of the matrix library, as a parameter. `product m n k i j u v`
is the entry `(i, j)` the library computes for a product of an `m x k` with a `k x n`
matrix from row `u` of the left and column `v` of the right factor (only their first
`k` entries count), in whatever order and with whatever rounding it uses there;
`productAdd m n k i j old u v` is what it leaves in an entry that held `old` when the
product is accumulated into the target. `zero` is the element 0. -/
structure Arithmetic (ElemType : Type) where
  zero : ElemType
  product : (m n k i j : Nat) → (Nat → ElemType) → (Nat → ElemType) → ElemType
  productAdd :
    (m n k i j : Nat) → ElemType → (Nat → ElemType) → (Nat → ElemType) → ElemType

namespace Matrix

/-- Element `(i, j)`, the source's `m(i, j)`. -/
def get {ElemType : Type} (m : Matrix ElemType) (i j : Nat) : ElemType :=
  m.data (j * m.numRows + i)

/-- The dimensions and the element count are `size_t` values. -/
def Valid {ElemType : Type} (m : Matrix ElemType) : Prop :=
  m.numRows < 2 ^ 64 ∧ m.numCols < 2 ^ 64 ∧ m.numRows * m.numCols < 2 ^ 64

/-- Modelled from the spec: `Resize` followed by `SetValue(v)`; a fresh matrix whose
elements are all `v`. -/
def constant {ElemType : Type} (r c : Nat) (v : ElemType) : Matrix ElemType :=
  { numRows := r, numCols := c, data := fun _ => v }

/-- Modelled from the spec: `SetValue(i, j, v)`, one element becomes `v`. -/
def SetValueAt {ElemType : Type} (m : Matrix ElemType) (i j : Nat) (v : ElemType) :
    Matrix ElemType :=
  { m with data := fun o => if o = j * m.numRows + i then v else m.data o }

/-- Modelled from the spec: `Reshaped(r, c)` and `Reshape(r, c)`; a zero-copy
reinterpretation of the same buffer, legal only when the element count is unchanged. -/
def Reshaped {ElemType : Type} (m : Matrix ElemType) (r c : Nat) :
    Except Err (Matrix ElemType) :=
  if r * c = m.numRows * m.numCols then .ok { numRows := r, numCols := c, data := m.data }
  else .error .invalidArgument

/-- Rows of `op(m)`, where `op` is the identity or the transpose. -/
def opRows {ElemType : Type} (m : Matrix ElemType) (transpose : Bool) : Nat :=
  if transpose then m.numCols else m.numRows

/-- Columns of `op(m)`. -/
def opCols {ElemType : Type} (m : Matrix ElemType) (transpose : Bool) : Nat :=
  if transpose then m.numRows else m.numCols

/-- Element `(i, j)` of `op(m)`. -/
def opGet {ElemType : Type} (m : Matrix ElemType) (transpose : Bool) (i j : Nat) : ElemType :=
  if transpose then m.get j i else m.get i j

/-- Modelled from the spec: `c.AssignProductOf(a, transposeA, b, transposeB)`, the
"single dense matrix product"; `c` becomes `op(a) * op(b)` as the library computes it
and takes the size of the product. The inner dimensions must agree. -/
def AssignProductOf {ElemType : Type} (K : Arithmetic ElemType) (c a : Matrix ElemType)
    (transposeA : Bool) (b : Matrix ElemType) (transposeB : Bool) :
    Except Err (Matrix ElemType) :=
  if a.opCols transposeA ≠ b.opRows transposeB then .error .invalidArgument
  else
    let m := a.opRows transposeA
    let n := b.opCols transposeB
    .ok ⟨m, n, fun o =>
      if o < m * n then
        K.product m n (a.opCols transposeA) (o % m) (o / m)
          (fun t => a.opGet transposeA (o % m) t) (fun t => b.opGet transposeB t (o / m))
      else c.data o⟩

/-- Modelled from the spec: `MultiplyAndAdd(a, transposeA, b, transposeB, c)`, which
"accumulates" the product `op(a) * op(b)` into `c`. The inner dimensions must agree and
`c` must already have the size of the product. -/
def MultiplyAndAdd {ElemType : Type} (K : Arithmetic ElemType) (a : Matrix ElemType)
    (transposeA : Bool) (b : Matrix ElemType) (transposeB : Bool) (c : Matrix ElemType) :
    Except Err (Matrix ElemType) :=
  if a.opCols transposeA ≠ b.opRows transposeB then .error .invalidArgument
  else if c.numRows ≠ a.opRows transposeA ∨ c.numCols ≠ b.opCols transposeB then
    .error .logicError
  else
    let m := c.numRows
    let n := c.numCols
    .ok ⟨m, n, fun o =>
      if o < m * n then
        K.productAdd m n (a.opCols transposeA) (o % m) (o / m) (c.data o)
          (fun t => a.opGet transposeA (o % m) t) (fun t => b.opGet transposeB t (o / m))
      else c.data o⟩

/-- Modelled from the spec: masking of gaps; the columns the minibatch layout marks as
padding are set to zero, the other columns are left as they are. -/
def MaskGaps {ElemType : Type} (K : Arithmetic ElemType) (isGap : Nat → Bool)
    (m : Matrix ElemType) : Matrix ElemType :=
  { m with data := fun o =>
      if o < m.numRows * m.numCols ∧ isGap (o / m.numRows) = true then K.zero
      else m.data o }

end Matrix

/-- What `LookupTableNode::BackpropTo` reads and writes for a frame range `t`: the value
and gradient of the two inputs, the node's own gradient, and the padding columns of the
minibatch layouts of input 1 and of the node. -/
structure LookupTableNode (ElemType : Type) where
  input0Value : Matrix ElemType
  input0Gradient : Matrix ElemType
  input1Value : Matrix ElemType
  input1Gradient : Matrix ElemType
  gradient : Matrix ElemType
  input1Gaps : Nat → Bool
  gaps : Nat → Bool

namespace LookupTableNode

/-- `LookupTableNode::ForwardProp`, on the three matrices it starts from:
`functionValues = ValueFor(t)`, `input0 = Input(0)->ValueAsMatrix()` and
`input1 = Input(1)->ValueFor(t)`. Returns the error raised, if any, and the content of
the output slice after the call. The reshaped matrices are views: the product is
written into the buffer of the output slice, whose own dimensions stay as declared. -/
def ForwardProp {ElemType : Type} (K : Arithmetic ElemType)
    (functionValues input0 input1 : Matrix ElemType) : Option Err × Matrix ElemType :=
  let rows1 := input1.numRows
  let cols1 := input1.numCols
  let cols0 := input0.numCols
  if cols0 = 0 then (some .divideByZero, functionValues)
  else
    let wordsInEachSample : Int := narrowToInt (rows1 / cols0)
    if mulSizeT cols0 (toSizeT wordsInEachSample) ≠ rows1 then
      (some .logicError, functionValues)
    else if toSizeT wordsInEachSample = 0 then (some .divideByZero, functionValues)
    else
      match input1.Reshaped (rows1 / toSizeT wordsInEachSample)
          (mulSizeT cols1 (toSizeT wordsInEachSample)) with
      | .error e => (some e, functionValues)
      | .ok input1Reshaped =>
        match functionValues.Reshaped input0.numRows input1Reshaped.numCols with
        | .error e => (some e, functionValues)
        | .ok functionValuesReshaped =>
          match functionValuesReshaped.AssignProductOf K input0 false input1Reshaped false with
          | .error e => (some e, functionValues)
          | .ok product => (none, { functionValues with data := product.data })

/-- The three matrices `BackpropToLeft` and `BackpropToRight` receive by reference. -/
structure BackpropArgs (ElemType : Type) where
  inputFunctionValues : Matrix ElemType
  inputGradientValues : Matrix ElemType
  gradientValues : Matrix ElemType

/-- `LookupTableNode::BackpropToLeft`: the gradient of the embedding matrix.
`inputFunctionValues` is the (masked) value of input 1, `inputGradientValues` the
gradient of input 0, `gradientValues` the (masked) gradient of the output. -/
def BackpropToLeft {ElemType : Type} (K : Arithmetic ElemType)
    (a : BackpropArgs ElemType) : Option Err × BackpropArgs ElemType :=
  let rows1 := a.inputFunctionValues.numRows
  let cols1 := a.inputFunctionValues.numCols
  let rowsp := a.gradientValues.numRows
  let colsp := a.gradientValues.numCols
  if a.inputGradientValues.numCols = 0 then (some .divideByZero, a)
  else
    let wordsInEachSample : Int := narrowToInt (rows1 / a.inputGradientValues.numCols)
    if toSizeT wordsInEachSample = 0 then (some .divideByZero, a)
    else
      match a.inputFunctionValues.Reshaped (rows1 / toSizeT wordsInEachSample)
          (mulSizeT cols1 (toSizeT wordsInEachSample)) with
      | .error e => (some e, a)
      | .ok x =>
        match a.gradientValues.Reshaped (rowsp / toSizeT wordsInEachSample)
            (mulSizeT colsp (toSizeT wordsInEachSample)) with
        | .error e => (some e, { a with inputFunctionValues := x })
        | .ok g =>
          match Matrix.MultiplyAndAdd K g false x true a.inputGradientValues with
          | .error e => (some e, ⟨x, a.inputGradientValues, g⟩)
          | .ok grad =>
            match x.Reshaped rows1 cols1 with
            | .error e => (some e, ⟨x, grad, g⟩)
            | .ok x1 =>
              match g.Reshaped rowsp colsp with
              | .error e => (some e, ⟨x1, grad, g⟩)
              | .ok g1 => (none, ⟨x1, grad, g1⟩)

/-- `LookupTableNode::BackpropToRight`: the gradient of the index input.
`inputFunctionValues` is the value of input 0 (the embedding matrix),
`inputGradientValues` the gradient of input 1, `gradientValues` the gradient of the
output. -/
def BackpropToRight {ElemType : Type} (K : Arithmetic ElemType)
    (a : BackpropArgs ElemType) : Option Err × BackpropArgs ElemType :=
  let rows1 := a.inputGradientValues.numRows
  let cols1 := a.inputGradientValues.numCols
  let rowsp := a.gradientValues.numRows
  let colsp := a.gradientValues.numCols
  if a.inputFunctionValues.numCols = 0 then (some .divideByZero, a)
  else
    let wordsInEachSample : Int := narrowToInt (rows1 / a.inputFunctionValues.numCols)
    if toSizeT wordsInEachSample = 0 then (some .divideByZero, a)
    else
      match a.inputGradientValues.Reshaped (rows1 / toSizeT wordsInEachSample)
          (mulSizeT cols1 (toSizeT wordsInEachSample)) with
      | .error e => (some e, a)
      | .ok d =>
        match a.gradientValues.Reshaped (rowsp / toSizeT wordsInEachSample)
            (mulSizeT colsp (toSizeT wordsInEachSample)) with
        | .error e => (some e, { a with inputGradientValues := d })
        | .ok g =>
          match Matrix.MultiplyAndAdd K a.inputFunctionValues true g false d with
          | .error e => (some e, ⟨a.inputFunctionValues, d, g⟩)
          | .ok grad =>
            match grad.Reshaped rows1 cols1 with
            | .error e => (some e, ⟨a.inputFunctionValues, grad, g⟩)
            | .ok grad1 =>
              match g.Reshaped rowsp colsp with
              | .error e => (some e, ⟨a.inputFunctionValues, grad1, g⟩)
              | .ok g1 => (none, ⟨a.inputFunctionValues, grad1, g1⟩)

/-- `LookupTableNode::BackpropTo`. `MaskedValueFor` and `MaskedGradientFor` zero the
padding columns in place and return the slice. The slices are views: reshaping one
stays local to the call, while what is written into its buffer is seen by the node.
`Input(0)->GradientAsMatrix()` is the gradient matrix of input 0 itself. -/
def BackpropTo {ElemType : Type} (K : Arithmetic ElemType) (inputIndex : Nat)
    (n : LookupTableNode ElemType) : Option Err × LookupTableNode ElemType :=
  if inputIndex = 0 then
    let sliceInput1Value := n.input1Value.MaskGaps K n.input1Gaps
    let sliceOutputGrad := n.gradient.MaskGaps K n.gaps
    let r := BackpropToLeft K ⟨sliceInput1Value, n.input0Gradient, sliceOutputGrad⟩
    (r.1, { n with input1Value := sliceInput1Value
                   gradient := sliceOutputGrad
                   input0Gradient := r.2.inputGradientValues })
  else if inputIndex = 1 then
    let r := BackpropToRight K ⟨n.input0Value, n.input1Gradient, n.gradient⟩
    (r.1, { n with input1Gradient := { n.input1Gradient with
                                       data := r.2.inputGradientValues.data } })
  else (none, n)

/-- The self-test's state before the two `BackpropTo` calls, with `cols` columns (the
source uses `cols = nOutput = 3`): the embedding matrix is 2 x 3 with `SetValue(1.0)`,
the index input is zero except `(0,0)` set to 1 and `(1,1)` set to 2, the output
gradient is all ones, both input gradients are set to zero; there is no padding. The
values are small integers, which `float` and `double` hold exactly. -/
def unitTestNode (cols : Nat) : LookupTableNode Int where
  input0Value := Matrix.constant 2 3 1
  input0Gradient := Matrix.constant 2 3 0
  input1Value := ((Matrix.constant 3 cols 0).SetValueAt 0 0 1).SetValueAt 1 1 2
  input1Gradient := Matrix.constant 3 cols 0
  gradient := Matrix.constant 2 cols 1
  input1Gaps := fun _ => false
  gaps := fun _ => false

end LookupTableNode

/-- Exact arithmetic on integers, the arithmetic of the section `LookupTableNode`: a
product entry is the sum of the products of the paired entries, and accumulating adds
that sum to the old entry. -/
def exactArithmetic : Arithmetic Int where
  zero := 0
  product := fun _ _ k _ _ u v => sumTo (fun t => u t * v t) k
  productAdd := fun _ _ k _ _ old u v => old + sumTo (fun t => u t * v t) k

/-- The number of low bits an integer of size `a` has beyond a 24-bit significand
(`fuel` bounds the count). -/
def excessBits : Nat → Nat → Nat
  | 0, _ => 0
  | fuel + 1, a => if a < 2 ^ 24 then 0 else excessBits fuel (a / 2) + 1

/-- Rounding of an integer to single precision (IEEE 754 binary32, the `float` of the
source), for integers below 2^128 in size: the nearest integer with a 24-bit
significand, ties to the even significand. Integers up to 2^24 in size are kept. -/
def roundToSingle (z : Int) : Int :=
  let a := z.natAbs
  let e := excessBits 128 a
  let q := a / 2 ^ e
  let r := a % 2 ^ e
  let q1 := if 2 * r > 2 ^ e ∨ (2 * r = 2 ^ e ∧ q % 2 = 1) then q + 1 else q
  if z < 0 then -((q1 * 2 ^ e : Nat) : Int) else ((q1 * 2 ^ e : Nat) : Int)

/-- A product entry in single precision, accumulated term by term in index order onto
`acc`, with every product and every sum rounded. -/
def singleDot (u v : Nat → Int) (acc : Int) : Nat → Int
  | 0 => acc
  | k + 1 => roundToSingle (singleDot u v acc k + roundToSingle (u k * v k))

/-- Single precision arithmetic on integer-valued elements: what the `float`
instantiation of the matrix library computes when it accumulates a product entry term
by term. -/
def singleArithmetic : Arithmetic Int where
  zero := 0
  product := fun _ _ k _ _ u v => singleDot u v 0 k
  productAdd := fun _ _ k _ _ old u v => singleDot u v old k

end Generic

/-! ## Concrete inputs -/

/-- A 2 x 3 embedding matrix with pairwise different entries. -/
def sampleInput0 : Matrix := { numRows := 2, numCols := 3, data := fun o => o + 1 }

/-- An input node whose value has 6 rows and whose layout is 2 x 3. -/
def sampleInputNode : InputValueBase where
  m_isSparse := true
  m_sampleLayout := ⟨[2, 3]⟩
  hasMBLayout := true
  value := Matrix.zeros 6 4
  valueIsSparse := true
  valueSharable := true
  learningRateMultiplier := 1

/-- A stored input node of an old file: 12 rows but a layout of 2 x 3. -/
def legacySerialized : InputValueBase.Serialized :=
  { rows := 12, colsDummy := 0, sampleLayout := ⟨[2, 3]⟩ }

/-- An environment node for the property `isTraining` with a 1 x 1 value holding 7. -/
def sampleEnvironmentNode : EnvironmentInputNode :=
  { m_propertyName := "isTraining", value := (Matrix.zeros 1 1).SetValue 7 }

/-- The value of a string of decimal digits, `none` if another character occurs. -/
def digitsValue : List Char → Nat → Option Nat
  | [], acc => some acc
  | c :: cs, acc =>
    if 48 ≤ c.toNat ∧ c.toNat ≤ 57 then digitsValue cs (10 * acc + (c.toNat - 48)) else none

/-- Conversions for the examples: a field of decimal digits converts to its value, any
other field makes `stoi` throw; `stof` never throws. -/
def plainConversions : LearnableParameter.Conversions where
  stoi := fun f =>
    match f.data with
    | [] => .error .invalidArgument
    | c :: cs =>
      match digitsValue (c :: cs) 0 with
      | some v => .ok v
      | none => .error .invalidArgument
  stof := fun _ => none

/-- A 2 x 3 embedding matrix with pairwise different entries. -/
def genericInput0 : Generic.Matrix Int := { numRows := 2, numCols := 3, data := fun o => o + 1 }

/-- A 6 x 2 index slice, two words per sample. -/
def genericInput1 : Generic.Matrix Int :=
  { numRows := 6, numCols := 2, data := fun o => 2 * o + 1 }

/-- A lookup node state with two words per sample whose second column is padding. -/
def genericNode : Generic.LookupTableNode Int where
  input0Value := genericInput0
  input0Gradient := { numRows := 2, numCols := 3, data := fun o => 10 * o }
  input1Value := genericInput1
  input1Gradient := { numRows := 6, numCols := 2, data := fun o => 5 * o }
  gradient := { numRows := 4, numCols := 2, data := fun o => o + 2 }
  input1Gaps := fun j => j == 1
  gaps := fun j => j == 1

/-- A lookup node state with a 1 x 1 embedding matrix and 2^32 words in its one sample;
values and output gradient are all ones, the input gradients are zero, nothing is
padding. -/
def wideNode : Generic.LookupTableNode Int where
  input0Value := Generic.Matrix.constant 1 1 1
  input0Gradient := Generic.Matrix.constant 1 1 0
  input1Value := Generic.Matrix.constant (2 ^ 32) 1 1
  input1Gradient := Generic.Matrix.constant (2 ^ 32) 1 0
  gradient := Generic.Matrix.constant (2 ^ 32) 1 1
  input1Gaps := fun _ => false
  gaps := fun _ => false

/-- A lookup node state with one word per sample and one sample: the embedding matrix
is the row `(2^24, 1)`, the index column is `(1, 1)`, the output gradient is 1, and both
input gradients hold 2^24 everywhere. -/
def roundingNode : Generic.LookupTableNode Int where
  input0Value := (Generic.Matrix.constant 1 2 1).SetValueAt 0 0 (2 ^ 24)
  input0Gradient := Generic.Matrix.constant 1 2 (2 ^ 24)
  input1Value := Generic.Matrix.constant 2 1 1
  input1Gradient := Generic.Matrix.constant 2 1 (2 ^ 24)
  gradient := Generic.Matrix.constant 1 1 1
  input1Gaps := fun _ => false
  gaps := fun _ => false

/-! ## Auxiliary facts -/

open LookupTableNode LearnableParameter

theorem narrow_small (n : Nat) (h : n < 2 ^ 31) : toSizeT (narrowToInt n) = n := by
  unfold toSizeT narrowToInt
  have h1 : n % 2 ^ 32 = n := Nat.mod_eq_of_lt (by omega)
  rw [h1, if_pos h]
  omega

theorem sumTo_eq_sum (f : Nat → Int) (n : Nat) : sumTo f n = ∑ t in Finset.range n, f t := by
  induction n with
  | zero => rfl
  | succ n ih => rw [sumTo, ih, Finset.sum_range_succ]

theorem offset_div_mod (r c i : Nat) (hi : i < r) :
    (c * r + i) % r = i ∧ (c * r + i) / r = c := by
  have hr : 0 < r := by omega
  constructor
  · rw [Nat.mul_comm, Nat.mul_add_mod, Nat.mod_eq_of_lt hi]
  · rw [Nat.mul_comm, Nat.mul_add_div hr, Nat.div_eq_of_lt hi, Nat.add_zero]

theorem Reshaped_error {m : Matrix} {r c : Nat} {e : Err}
    (h : m.Reshaped r c = .error e) : e = .invalidArgument := by
  unfold Matrix.Reshaped at h
  split_ifs at h
  cases h; rfl

theorem AssignProductOf_error {c a b : Matrix} {tA tB : Bool} {e : Err}
    (h : c.AssignProductOf a tA b tB = .error e) : e = .invalidArgument := by
  unfold Matrix.AssignProductOf at h
  split_ifs at h
  cases h; rfl

theorem generic_valid_cols_stack {α : Type} (X : Generic.Matrix α) (w c : Nat) (hv : X.Valid)
    (hX : X.numRows = w * c) (hc : 1 ≤ c) : X.numCols * w < 2 ^ 64 := by
  obtain ⟨_, _, h3⟩ := hv
  have : w ≤ X.numRows := by rw [hX]; exact Nat.le_mul_of_pos_right w hc
  calc X.numCols * w ≤ X.numCols * X.numRows := Nat.mul_le_mul_left _ this
    _ = X.numRows * X.numCols := Nat.mul_comm _ _
    _ < 2 ^ 64 := h3

theorem stacked_offset (j w p r i : Nat) :
    j * (r * w) + (p * r + i) = (j * w + p) * r + i := by ring

theorem stacked_column_lt (j p w n : Nat) (hj : j < n) (hp : p < w) : j * w + p < n * w := by
  calc j * w + p < j * w + w := by omega
    _ = (j + 1) * w := by ring
    _ ≤ n * w := Nat.mul_le_mul_right w hj

theorem offset_lt (c r i n : Nat) (hc : c < n) (hi : i < r) : c * r + i < r * n := by
  calc c * r + i < c * r + r := by omega
    _ = (c + 1) * r := by ring
    _ ≤ n * r := Nat.mul_le_mul_right _ hc
    _ = r * n := Nat.mul_comm _ _

theorem split_offset (c w r i : Nat) :
    (c / w) * (r * w) + ((c % w) * r + i) = c * r + i := by
  have h := Nat.div_add_mod c w
  calc (c / w) * (r * w) + ((c % w) * r + i) = (w * (c / w) + c % w) * r + i := by ring
    _ = c * r + i := by rw [h]

theorem generic_ForwardProp_eval {α : Type} (K : Generic.Arithmetic α)
    (fv E X : Generic.Matrix α) (w : Nat)
    (h0 : 1 ≤ E.numCols) (hX : X.numRows = w * E.numCols) (hw1 : 1 ≤ w) (hw : w < 2 ^ 31)
    (hXr : X.numRows < 2 ^ 64) (hc : X.numCols * w < 2 ^ 64)
    (hfr : fv.numRows = E.numRows * w) (hfc : fv.numCols = X.numCols) :
    Generic.LookupTableNode.ForwardProp K fv E X =
      (none, Generic.Matrix.mk fv.numRows fv.numCols (fun o =>
        if o < E.numRows * (X.numCols * w) then
          K.product E.numRows (X.numCols * w) E.numCols (o % E.numRows) (o / E.numRows)
            (fun t => E.get (o % E.numRows) t)
            (fun t => (Generic.Matrix.mk E.numCols (X.numCols * w) X.data).get t (o / E.numRows))
        else fv.data o)) := by
  have hq : X.numRows / E.numCols = w := by rw [hX]; exact Nat.mul_div_cancel _ (by omega)
  have hn : toSizeT (narrowToInt w) = w := narrow_small w hw
  have hm : mulSizeT E.numCols w = X.numRows := by
    unfold mulSizeT; rw [Nat.mul_comm, ← hX]; exact Nat.mod_eq_of_lt hXr
  have hm2 : mulSizeT X.numCols w = X.numCols * w := Nat.mod_eq_of_lt hc
  have hd : X.numRows / w = E.numCols := by rw [hX]; exact Nat.mul_div_cancel_left _ (by omega)
  have hc0 : E.numCols ≠ 0 := by omega
  have hw0 : w ≠ 0 := by omega
  have e1 : E.numCols * (X.numCols * w) = X.numRows * X.numCols := by rw [hX]; ring
  have e2 : E.numRows * (X.numCols * w) = fv.numRows * fv.numCols := by rw [hfr, hfc]; ring
  simp only [Generic.LookupTableNode.ForwardProp, hq, hn, hm, hm2, hd, if_neg hc0, if_neg hw0,
    ne_eq, not_true_eq_false, if_false, Generic.Matrix.Reshaped, e1, e2, if_true,
    Generic.Matrix.AssignProductOf, Generic.Matrix.opCols, Generic.Matrix.opRows,
    Generic.Matrix.opGet, Bool.false_eq_true]

theorem generic_ForwardProp_entry {α : Type} (K : Generic.Arithmetic α)
    (fv E X : Generic.Matrix α) (w : Nat)
    (h0 : 1 ≤ E.numCols) (hX : X.numRows = w * E.numCols) (hw1 : 1 ≤ w) (hw : w < 2 ^ 31)
    (hXv : X.Valid)
    (hfr : fv.numRows = E.numRows * w) (hfc : fv.numCols = X.numCols)
    (j p i : Nat) (hj : j < X.numCols) (hp : p < w) (hi : i < E.numRows) :
    (Generic.LookupTableNode.ForwardProp K fv E X).2.get (p * E.numRows + i) j =
      K.product E.numRows (X.numCols * w) E.numCols i (j * w + p)
        (fun k => E.get i k) (fun k => X.get (p * E.numCols + k) j) := by
  rw [generic_ForwardProp_eval K fv E X w h0 hX hw1 hw hXv.1
    (generic_valid_cols_stack X w _ hXv hX h0) hfr hfc]
  have hlt := offset_lt (j * w + p) E.numRows i (X.numCols * w)
    (stacked_column_lt j p w X.numCols hj hp) hi
  obtain ⟨hmod, hdiv⟩ := offset_div_mod E.numRows (j * w + p) i hi
  simp only [Generic.Matrix.get, hfr, stacked_offset, if_pos hlt, hmod, hdiv]
  congr 1
  funext k
  rw [hX]
  congr 1
  ring

theorem exact_product (m n k i j : Nat) (u v : Nat → Int) :
    Generic.exactArithmetic.product m n k i j u v = ∑ t in Finset.range k, u t * v t := by
  simp only [Generic.exactArithmetic, sumTo_eq_sum]

-- The definitions of the section `LookupTableNode`, on exact integers, are the
-- definitions for an arbitrary element type at `exactArithmetic`.
theorem ForwardProp_exact_instance (fv E X : Matrix) :
    Generic.LookupTableNode.ForwardProp Generic.exactArithmetic
        ⟨fv.numRows, fv.numCols, fv.data⟩ ⟨E.numRows, E.numCols, E.data⟩
        ⟨X.numRows, X.numCols, X.data⟩ =
      ((ForwardProp fv E X).1,
        ⟨(ForwardProp fv E X).2.numRows, (ForwardProp fv E X).2.numCols,
          (ForwardProp fv E X).2.data⟩) := by
  simp only [Generic.LookupTableNode.ForwardProp, ForwardProp, Generic.Matrix.Reshaped,
    Matrix.Reshaped, Generic.Matrix.AssignProductOf, Matrix.AssignProductOf,
    Generic.Matrix.opCols, Matrix.opCols, Generic.Matrix.opRows, Matrix.opRows,
    Bool.false_eq_true, if_false]
  split_ifs <;> first | rfl | (simp only []; split_ifs <;> rfl)

theorem BackpropToLeft_exact_instance (a : BackpropArgs) :
    Generic.LookupTableNode.BackpropToLeft Generic.exactArithmetic
        ⟨⟨a.inputFunctionValues.numRows, a.inputFunctionValues.numCols,
            a.inputFunctionValues.data⟩,
          ⟨a.inputGradientValues.numRows, a.inputGradientValues.numCols,
            a.inputGradientValues.data⟩,
          ⟨a.gradientValues.numRows, a.gradientValues.numCols, a.gradientValues.data⟩⟩ =
      ((BackpropToLeft a).1,
        ⟨⟨(BackpropToLeft a).2.inputFunctionValues.numRows,
            (BackpropToLeft a).2.inputFunctionValues.numCols,
            (BackpropToLeft a).2.inputFunctionValues.data⟩,
          ⟨(BackpropToLeft a).2.inputGradientValues.numRows,
            (BackpropToLeft a).2.inputGradientValues.numCols,
            (BackpropToLeft a).2.inputGradientValues.data⟩,
          ⟨(BackpropToLeft a).2.gradientValues.numRows,
            (BackpropToLeft a).2.gradientValues.numCols,
            (BackpropToLeft a).2.gradientValues.data⟩⟩) := by
  obtain ⟨⟨r0, c0, d0⟩, ⟨r1, c1, d1⟩, ⟨r2, c2, d2⟩⟩ := a
  simp only [Generic.LookupTableNode.BackpropToLeft, BackpropToLeft,
    Generic.Matrix.Reshaped, Matrix.Reshaped, Generic.Matrix.MultiplyAndAdd,
    Matrix.MultiplyAndAdd, Generic.Matrix.opCols, Matrix.opCols, Generic.Matrix.opRows,
    Matrix.opRows, Bool.false_eq_true, if_false, if_true]
  by_cases h1 : c1 = 0
  · simp only [h1, if_true]
  · simp only [h1, if_false]
    by_cases h2 : toSizeT (narrowToInt (r0 / c1)) = 0
    · simp only [h2, if_true]
    · simp only [h2, if_false]
      by_cases h3 : r0 / toSizeT (narrowToInt (r0 / c1)) *
          mulSizeT c0 (toSizeT (narrowToInt (r0 / c1))) = r0 * c0
      · simp only [h3, if_true]
        by_cases h4 : r2 / toSizeT (narrowToInt (r0 / c1)) *
            mulSizeT c2 (toSizeT (narrowToInt (r0 / c1))) = r2 * c2
        · simp only [h4, if_true]
          by_cases h5 : mulSizeT c2 (toSizeT (narrowToInt (r0 / c1))) =
              mulSizeT c0 (toSizeT (narrowToInt (r0 / c1)))
          · simp only [h5, ne_eq, not_true_eq_false, if_false]
            by_cases h6 : r1 ≠ r2 / toSizeT (narrowToInt (r0 / c1)) ∨
                c1 ≠ r0 / toSizeT (narrowToInt (r0 / c1))
            · simp only [h6, if_true]
            · simp only [h6, if_false]
              rfl
          · simp only [h5, ne_eq, not_false_eq_true, if_true]
        · simp only [h4, if_false]
      · simp only [h3, if_false]

theorem BackpropToRight_exact_instance (a : BackpropArgs) :
    Generic.LookupTableNode.BackpropToRight Generic.exactArithmetic
        ⟨⟨a.inputFunctionValues.numRows, a.inputFunctionValues.numCols,
            a.inputFunctionValues.data⟩,
          ⟨a.inputGradientValues.numRows, a.inputGradientValues.numCols,
            a.inputGradientValues.data⟩,
          ⟨a.gradientValues.numRows, a.gradientValues.numCols, a.gradientValues.data⟩⟩ =
      ((BackpropToRight a).1,
        ⟨⟨(BackpropToRight a).2.inputFunctionValues.numRows,
            (BackpropToRight a).2.inputFunctionValues.numCols,
            (BackpropToRight a).2.inputFunctionValues.data⟩,
          ⟨(BackpropToRight a).2.inputGradientValues.numRows,
            (BackpropToRight a).2.inputGradientValues.numCols,
            (BackpropToRight a).2.inputGradientValues.data⟩,
          ⟨(BackpropToRight a).2.gradientValues.numRows,
            (BackpropToRight a).2.gradientValues.numCols,
            (BackpropToRight a).2.gradientValues.data⟩⟩) := by
  obtain ⟨⟨r0, c0, d0⟩, ⟨r1, c1, d1⟩, ⟨r2, c2, d2⟩⟩ := a
  simp only [Generic.LookupTableNode.BackpropToRight, BackpropToRight,
    Generic.Matrix.Reshaped, Matrix.Reshaped, Generic.Matrix.MultiplyAndAdd,
    Matrix.MultiplyAndAdd, Generic.Matrix.opCols, Matrix.opCols, Generic.Matrix.opRows,
    Matrix.opRows, Bool.false_eq_true, if_false, if_true]
  by_cases h1 : c0 = 0
  · simp only [h1, if_true]
  · simp only [h1, if_false]
    by_cases h2 : toSizeT (narrowToInt (r1 / c0)) = 0
    · simp only [h2, if_true]
    · simp only [h2, if_false]
      by_cases h3 : r1 / toSizeT (narrowToInt (r1 / c0)) *
          mulSizeT c1 (toSizeT (narrowToInt (r1 / c0))) = r1 * c1
      · simp only [h3, if_true]
        by_cases h4 : r2 / toSizeT (narrowToInt (r1 / c0)) *
            mulSizeT c2 (toSizeT (narrowToInt (r1 / c0))) = r2 * c2
        · simp only [h4, if_true]
          by_cases h5 : r0 = r2 / toSizeT (narrowToInt (r1 / c0))
          · simp only [← h5, ne_eq, not_true_eq_false, if_false]
            by_cases h6 : r1 / toSizeT (narrowToInt (r1 / c0)) ≠ c0 ∨
                mulSizeT c1 (toSizeT (narrowToInt (r1 / c0))) ≠
                  mulSizeT c2 (toSizeT (narrowToInt (r1 / c0)))
            · simp only [ne_eq] at h6
              simp only [ne_eq, h6, if_true]
            · simp only [ne_eq] at h6
              simp only [ne_eq, h6, if_false]
              first | rfl | (simp only [h3, if_true]; rfl)
          · simp only [h5, ne_eq, not_false_eq_true, if_true]
        · simp only [h4, if_false]
      · simp only [h3, if_false]

theorem BackpropTo_exact_instance (inputIndex : Nat) (n : LookupTableNode) :
    Generic.LookupTableNode.BackpropTo Generic.exactArithmetic inputIndex
        ⟨⟨n.input0Value.numRows, n.input0Value.numCols, n.input0Value.data⟩,
          ⟨n.input0Gradient.numRows, n.input0Gradient.numCols, n.input0Gradient.data⟩,
          ⟨n.input1Value.numRows, n.input1Value.numCols, n.input1Value.data⟩,
          ⟨n.input1Gradient.numRows, n.input1Gradient.numCols, n.input1Gradient.data⟩,
          ⟨n.gradient.numRows, n.gradient.numCols, n.gradient.data⟩,
          n.input1Gaps, n.gaps⟩ =
      ((BackpropTo inputIndex n).1,
        ⟨⟨(BackpropTo inputIndex n).2.input0Value.numRows,
            (BackpropTo inputIndex n).2.input0Value.numCols,
            (BackpropTo inputIndex n).2.input0Value.data⟩,
          ⟨(BackpropTo inputIndex n).2.input0Gradient.numRows,
            (BackpropTo inputIndex n).2.input0Gradient.numCols,
            (BackpropTo inputIndex n).2.input0Gradient.data⟩,
          ⟨(BackpropTo inputIndex n).2.input1Value.numRows,
            (BackpropTo inputIndex n).2.input1Value.numCols,
            (BackpropTo inputIndex n).2.input1Value.data⟩,
          ⟨(BackpropTo inputIndex n).2.input1Gradient.numRows,
            (BackpropTo inputIndex n).2.input1Gradient.numCols,
            (BackpropTo inputIndex n).2.input1Gradient.data⟩,
          ⟨(BackpropTo inputIndex n).2.gradient.numRows,
            (BackpropTo inputIndex n).2.gradient.numCols,
            (BackpropTo inputIndex n).2.gradient.data⟩,
          (BackpropTo inputIndex n).2.input1Gaps, (BackpropTo inputIndex n).2.gaps⟩) := by
  by_cases h0 : inputIndex = 0
  · have h := BackpropToLeft_exact_instance
      ⟨n.input1Value.MaskGaps n.input1Gaps, n.input0Gradient, n.gradient.MaskGaps n.gaps⟩
    simp only [Generic.LookupTableNode.BackpropTo, BackpropTo, h0, if_true]
    simp only [Generic.Matrix.MaskGaps, Matrix.MaskGaps] at h ⊢
    rw [show Generic.exactArithmetic.zero = 0 from rfl, h]
  · by_cases h1 : inputIndex = 1
    · have h := BackpropToRight_exact_instance ⟨n.input0Value, n.input1Gradient, n.gradient⟩
      simp only [Generic.LookupTableNode.BackpropTo, BackpropTo, h1, if_true, one_ne_zero,
        if_false]
      rw [h]
    · simp only [Generic.LookupTableNode.BackpropTo, BackpropTo, h0, h1, if_false]

theorem ForwardProp_error_unchanged (fv E X : Matrix)
    (h : (ForwardProp fv E X).1 ≠ none) : (ForwardProp fv E X).2 = fv := by
  revert h
  simp only [ForwardProp]
  split_ifs
  · intro _; rfl
  · intro _; rfl
  · intro _; rfl
  · split
    · intro _; rfl
    · split
      · intro _; rfl
      · split
        · intro _; rfl
        · intro h; exact absurd rfl h

/-! ## Claims -/

/-- C1 (amended). `LookupTableNode::ForwardProp`, for every element type and arithmetic
of the matrix library: for an embedding matrix `E` with at least one column, an index
slice `X` held in memory with `rows1 = w * cols0`, `w >= 1` and `w` within the `int`
range, and an output slice of the declared shape `(embDim * w) x cols1`, the call
succeeds, the output keeps that shape, and entry `(p*embDim + i, j)` of the output is
the product entry the library computes from row `i` of `E` and block `p` of column `j`
of `X` (entry `(i, j*w + p)` of the one product `E x reshapedInput`); for `w = 1` the
output is the library's product `E x X`. When the arithmetic is exact that entry is the
sum over `k` of `E[i,k] * X[p*cols0 + k, j]`. In the self-test the entries `(0,0)`,
`(0,1)` and `(1,1)` of the output are 1, 2 and 2, in exact and in single precision
arithmetic. -/
theorem ForwardProp_blockwise_product :
    (∀ (α : Type) (K : Generic.Arithmetic α) (fv E X : Generic.Matrix α) (w : Nat),
      1 ≤ E.numCols → X.numRows = w * E.numCols → 1 ≤ w → w < 2 ^ 31 → X.Valid →
      fv.numRows = E.numRows * w → fv.numCols = X.numCols →
      (Generic.LookupTableNode.ForwardProp K fv E X).1 = none ∧
      (Generic.LookupTableNode.ForwardProp K fv E X).2.numRows = E.numRows * w ∧
      (Generic.LookupTableNode.ForwardProp K fv E X).2.numCols = X.numCols ∧
      (∀ j p i, j < X.numCols → p < w → i < E.numRows →
        (Generic.LookupTableNode.ForwardProp K fv E X).2.get (p * E.numRows + i) j =
          K.product E.numRows (X.numCols * w) E.numCols i (j * w + p)
            (fun k => E.get i k) (fun k => X.get (p * E.numCols + k) j)) ∧
      (w = 1 → ∀ i j, i < E.numRows → j < X.numCols →
        (Generic.LookupTableNode.ForwardProp K fv E X).2.get i j =
          K.product E.numRows X.numCols E.numCols i j
            (fun k => E.get i k) (fun k => X.get k j))) ∧
    (∀ (fv E X : Generic.Matrix Int) (w : Nat),
      1 ≤ E.numCols → X.numRows = w * E.numCols → 1 ≤ w → w < 2 ^ 31 → X.Valid →
      fv.numRows = E.numRows * w → fv.numCols = X.numCols →
      ∀ j p i, j < X.numCols → p < w → i < E.numRows →
        (Generic.LookupTableNode.ForwardProp Generic.exactArithmetic fv E X).2.get
            (p * E.numRows + i) j =
          ∑ k in Finset.range E.numCols, E.get i k * X.get (p * E.numCols + k) j) ∧
    (∀ fv : Generic.Matrix Int, fv.numRows = 2 → fv.numCols = 3 →
      ((Generic.LookupTableNode.ForwardProp Generic.exactArithmetic fv
          (Generic.LookupTableNode.unitTestNode 3).input0Value
          (Generic.LookupTableNode.unitTestNode 3).input1Value).2.get 0 0 = 1 ∧
        (Generic.LookupTableNode.ForwardProp Generic.exactArithmetic fv
          (Generic.LookupTableNode.unitTestNode 3).input0Value
          (Generic.LookupTableNode.unitTestNode 3).input1Value).2.get 0 1 = 2 ∧
        (Generic.LookupTableNode.ForwardProp Generic.exactArithmetic fv
          (Generic.LookupTableNode.unitTestNode 3).input0Value
          (Generic.LookupTableNode.unitTestNode 3).input1Value).2.get 1 1 = 2) ∧
      ((Generic.LookupTableNode.ForwardProp Generic.singleArithmetic fv
          (Generic.LookupTableNode.unitTestNode 3).input0Value
          (Generic.LookupTableNode.unitTestNode 3).input1Value).2.get 0 0 = 1 ∧
        (Generic.LookupTableNode.ForwardProp Generic.singleArithmetic fv
          (Generic.LookupTableNode.unitTestNode 3).input0Value
          (Generic.LookupTableNode.unitTestNode 3).input1Value).2.get 0 1 = 2 ∧
        (Generic.LookupTableNode.ForwardProp Generic.singleArithmetic fv
          (Generic.LookupTableNode.unitTestNode 3).input0Value
          (Generic.LookupTableNode.unitTestNode 3).input1Value).2.get 1 1 = 2)) := by
  refine ⟨?_, ?_, ?_⟩
  · intro α K fv E X w h0 hX hw1 hw hXv hfr hfc
    have hev := generic_ForwardProp_eval K fv E X w h0 hX hw1 hw hXv.1
      (generic_valid_cols_stack X w _ hXv hX h0) hfr hfc
    refine ⟨by rw [hev], by rw [hev]; exact hfr, by rw [hev]; exact hfc, ?_, ?_⟩
    · intro j p i hj hp hi
      exact generic_ForwardProp_entry K fv E X w h0 hX hw1 hw hXv hfr hfc j p i hj hp hi
    · intro h1 i j hi hj
      subst h1
      have := generic_ForwardProp_entry K fv E X 1 h0 hX hw1 hw hXv hfr hfc j 0 i hj
        (by omega) hi
      simpa using this
  · intro fv E X w h0 hX hw1 hw hXv hfr hfc j p i hj hp hi
    rw [generic_ForwardProp_entry Generic.exactArithmetic fv E X w h0 hX hw1 hw hXv hfr hfc
      j p i hj hp hi]
    exact exact_product _ _ _ _ _ _ _
  · intro fv hr hc
    have key := fun (K : Generic.Arithmetic Int) j i hj hi =>
      generic_ForwardProp_entry K fv (Generic.LookupTableNode.unitTestNode 3).input0Value
        (Generic.LookupTableNode.unitTestNode 3).input1Value 1 (by decide) (by decide)
        (by decide) (by decide) (by unfold Generic.Matrix.Valid; decide) hr hc j 0 i hj
        (by decide) hi
    refine ⟨⟨(key _ 0 0 (by decide) (by decide)).trans (by decide),
      (key _ 1 0 (by decide) (by decide)).trans (by decide),
      (key _ 1 1 (by decide) (by decide)).trans (by decide)⟩,
      ⟨(key _ 0 0 (by decide) (by decide)).trans (by decide),
      (key _ 1 0 (by decide) (by decide)).trans (by decide),
      (key _ 1 1 (by decide) (by decide)).trans (by decide)⟩⟩

/-- C1, witness: two words per sample, a 2 x 3 embedding matrix and a 6 x 2 index
slice, in single precision arithmetic; and the self-test on an output slice of zeros. -/
theorem ForwardProp_blockwise_product_witness :
    (1 ≤ genericInput0.numCols ∧ genericInput1.numRows = 2 * genericInput0.numCols ∧
      genericInput1.Valid) ∧
    (Generic.LookupTableNode.ForwardProp Generic.singleArithmetic
      (Generic.Matrix.constant 4 2 0) genericInput0 genericInput1).1 = none ∧
    (Generic.LookupTableNode.ForwardProp Generic.singleArithmetic
      (Generic.Matrix.constant 4 2 0) genericInput0 genericInput1).2.get (1 * 2 + 1) 1 =
      Generic.singleArithmetic.product 2 (2 * 2) 3 1 (1 * 2 + 1)
        (fun k => genericInput0.get 1 k) (fun k => genericInput1.get (1 * 3 + k) 1) ∧
    (Generic.LookupTableNode.ForwardProp Generic.exactArithmetic
      (Generic.Matrix.constant 2 3 0) (Generic.LookupTableNode.unitTestNode 3).input0Value
      (Generic.LookupTableNode.unitTestNode 3).input1Value).2.get 0 1 = 2 :=
  have h := ForwardProp_blockwise_product.1 Int Generic.singleArithmetic
    (Generic.Matrix.constant 4 2 0) genericInput0 genericInput1 2
    (by decide) (by decide) (by decide) (by decide) (by unfold Generic.Matrix.Valid; decide)
    (by decide) (by decide)
  ⟨⟨by decide, by decide, by unfold Generic.Matrix.Valid; decide⟩, h.1,
    h.2.2.2.1 1 1 1 (by decide) (by decide) (by decide),
    (ForwardProp_blockwise_product.2.2 (Generic.Matrix.constant 2 3 0) rfl rfl).1.2.1⟩

/-- C1, counterexample to the claim as stated, in two parts. With `cols0 = 1` and
`rows1 = 2^32` (so `w = 2^32 >= 1`), `int wordsInEachSample` is 0, the multiple check
fails although `rows1` is a multiple of `cols0`, and the output is not the product.
With `E = (2^24, 1)`, `X = (1, 1)` and `w = 1` in single precision arithmetic the call
succeeds and the output entry is 16777216, while the sum of the claim is 16777217. -/
theorem ForwardProp_counterexample :
    (1 ≤ wideNode.input0Value.numCols ∧
      wideNode.input1Value.numRows = 2 ^ 32 * wideNode.input0Value.numCols ∧
      wideNode.input1Value.Valid ∧
      wideNode.input1Gradient.numRows = wideNode.input0Value.numRows * 2 ^ 32 ∧
      wideNode.input1Gradient.numCols = wideNode.input1Value.numCols ∧
      (Generic.LookupTableNode.ForwardProp Generic.exactArithmetic wideNode.input1Gradient
        wideNode.input0Value wideNode.input1Value).1 = some Err.logicError ∧
      (Generic.LookupTableNode.ForwardProp Generic.exactArithmetic wideNode.input1Gradient
        wideNode.input0Value wideNode.input1Value).2.get
          (0 * wideNode.input0Value.numRows + 0) 0 ≠
        ∑ k in Finset.range wideNode.input0Value.numCols,
          wideNode.input0Value.get 0 k *
            wideNode.input1Value.get (0 * wideNode.input0Value.numCols + k) 0) ∧
    (1 ≤ roundingNode.input0Value.numCols ∧
      roundingNode.input1Value.numRows = 1 * roundingNode.input0Value.numCols ∧
      roundingNode.input1Value.Valid ∧
      roundingNode.gradient.numRows = roundingNode.input0Value.numRows * 1 ∧
      roundingNode.gradient.numCols = roundingNode.input1Value.numCols ∧
      (Generic.LookupTableNode.ForwardProp Generic.singleArithmetic roundingNode.gradient
        roundingNode.input0Value roundingNode.input1Value).1 = none ∧
      (Generic.LookupTableNode.ForwardProp Generic.singleArithmetic roundingNode.gradient
        roundingNode.input0Value roundingNode.input1Value).2.get
          (0 * roundingNode.input0Value.numRows + 0) 0 = 16777216 ∧
      ∑ k in Finset.range roundingNode.input0Value.numCols,
        roundingNode.input0Value.get 0 k *
          roundingNode.input1Value.get (0 * roundingNode.input0Value.numCols + k) 0 =
        16777217) := by
  refine ⟨⟨by decide, by decide, by unfold Generic.Matrix.Valid; decide, by decide, by decide,
    by decide, by decide⟩,
    ⟨by decide, by decide, by unfold Generic.Matrix.Valid; decide, by decide, by decide,
    by decide, by decide, by decide⟩⟩

/-- C2. `LookupTableNode::ForwardProp`, for `cols0 >= 1` and `rows1` within the `int`
range: it raises the logic error exactly when `cols0 * (rows1 / cols0) != rows1`, and
whenever it fails the output slice is left as it was. -/
theorem ForwardProp_logicError_iff (fv E X : Matrix)
    (h0 : 1 ≤ E.numCols) (hr : X.numRows < 2 ^ 31) :
    ((ForwardProp fv E X).1 = some Err.logicError ↔
      E.numCols * (X.numRows / E.numCols) ≠ X.numRows) ∧
    ((ForwardProp fv E X).1 ≠ none → (ForwardProp fv E X).2 = fv) := by
  refine ⟨?_, ForwardProp_error_unchanged fv E X⟩
  have hc0 : E.numCols ≠ 0 := by omega
  have hq : X.numRows / E.numCols < 2 ^ 31 := lt_of_le_of_lt (Nat.div_le_self _ _) hr
  have hn := narrow_small _ hq
  have hm : mulSizeT E.numCols (X.numRows / E.numCols) =
      E.numCols * (X.numRows / E.numCols) :=
    Nat.mod_eq_of_lt (by have := Nat.mul_div_le X.numRows E.numCols; omega)
  by_cases hchk : E.numCols * (X.numRows / E.numCols) = X.numRows
  · have hne : ¬ (E.numCols * (X.numRows / E.numCols) ≠ X.numRows) := fun h => h hchk
    simp only [ForwardProp, if_neg hc0, hn, hm, hne, if_false, iff_false]
    split_ifs with hz
    · simp
    · split
      · rename_i e heq
        rw [Reshaped_error heq]; simp
      · split
        · rename_i e heq
          rw [Reshaped_error heq]; simp
        · split
          · rename_i e heq
            rw [AssignProductOf_error heq]; simp
          · simp
  · simp only [ForwardProp, if_neg hc0, hn, hm, ne_eq, hchk, not_false_eq_true, if_true]

/-- C2, witness: a 7 x 2 index slice against 3 columns fails; the output is untouched. -/
theorem ForwardProp_logicError_iff_witness :
    (1 ≤ sampleInput0.numCols ∧ (Matrix.zeros 7 2).numRows < 2 ^ 31) ∧
    (ForwardProp (Matrix.zeros 4 2) sampleInput0 (Matrix.zeros 7 2)).1 = some Err.logicError :=
  ⟨⟨by decide, by decide⟩,
    (ForwardProp_logicError_iff (Matrix.zeros 4 2) sampleInput0 (Matrix.zeros 7 2)
      (by decide) (by decide)).1.2 (by decide)⟩

theorem sum_range_mul_block (F : Nat → Int) (n w : Nat) :
    ∑ t in Finset.range (n * w), F t =
      ∑ j in Finset.range n, ∑ p in Finset.range w, F (j * w + p) := by
  induction n with
  | zero => simp
  | succ n ih =>
    rw [Nat.succ_mul, Finset.sum_range_add, ih, Finset.sum_range_succ]

theorem generic_MaskGaps_get {α : Type} (K : Generic.Arithmetic α) (isGap : Nat → Bool)
    (m : Generic.Matrix α) (r j : Nat) (hr : r < m.numRows) (hj : j < m.numCols) :
    (m.MaskGaps K isGap).get r j = if isGap j = true then K.zero else m.get r j := by
  obtain ⟨_, hdiv⟩ := offset_div_mod m.numRows j r hr
  have hlt := offset_lt j m.numRows r m.numCols hj hr
  simp only [Generic.Matrix.get, Generic.Matrix.MaskGaps, hdiv, hlt, true_and]

theorem generic_BackpropToLeft_eval {α : Type} (K : Generic.Arithmetic α)
    (a : Generic.LookupTableNode.BackpropArgs α) (w : Nat)
    (h0 : 1 ≤ a.inputGradientValues.numCols)
    (hX : a.inputFunctionValues.numRows = w * a.inputGradientValues.numCols)
    (hw1 : 1 ≤ w) (hw : w < 2 ^ 31)
    (hc : a.inputFunctionValues.numCols * w < 2 ^ 64)
    (hgr : a.gradientValues.numRows = a.inputGradientValues.numRows * w)
    (hgc : a.gradientValues.numCols = a.inputFunctionValues.numCols) :
    Generic.LookupTableNode.BackpropToLeft K a =
      (none, ⟨a.inputFunctionValues,
        Generic.Matrix.mk a.inputGradientValues.numRows a.inputGradientValues.numCols (fun o =>
          if o < a.inputGradientValues.numRows * a.inputGradientValues.numCols then
            K.productAdd a.inputGradientValues.numRows a.inputGradientValues.numCols
              (a.inputFunctionValues.numCols * w)
              (o % a.inputGradientValues.numRows) (o / a.inputGradientValues.numRows)
              (a.inputGradientValues.data o)
              (fun t => (Generic.Matrix.mk a.inputGradientValues.numRows
                (a.inputFunctionValues.numCols * w) a.gradientValues.data).get
                  (o % a.inputGradientValues.numRows) t)
              (fun t => (Generic.Matrix.mk a.inputGradientValues.numCols
                (a.inputFunctionValues.numCols * w) a.inputFunctionValues.data).get
                  (o / a.inputGradientValues.numRows) t)
          else a.inputGradientValues.data o),
        a.gradientValues⟩) := by
  obtain ⟨X, D, G⟩ := a
  simp only at h0 hX hw1 hw hc hgr hgc ⊢
  have hq : X.numRows / D.numCols = w := by rw [hX]; exact Nat.mul_div_cancel _ (by omega)
  have hn : toSizeT (narrowToInt w) = w := narrow_small w hw
  have hm2 : mulSizeT X.numCols w = X.numCols * w := Nat.mod_eq_of_lt hc
  have hd : X.numRows / w = D.numCols := by rw [hX]; exact Nat.mul_div_cancel_left _ (by omega)
  have hdg : G.numRows / w = D.numRows := by rw [hgr]; exact Nat.mul_div_cancel _ (by omega)
  have hc0 : D.numCols ≠ 0 := by omega
  have hw0 : w ≠ 0 := by omega
  have e1 : D.numCols * (X.numCols * w) = X.numRows * X.numCols := by rw [hX]; ring
  have e2 : D.numRows * (X.numCols * w) = G.numRows * X.numCols := by rw [hgr]; ring
  simp only [Generic.LookupTableNode.BackpropToLeft, hq, hn, hm2, hd, hdg, hgc, if_neg hc0,
    if_neg hw0, Generic.Matrix.Reshaped, e1, e2, if_true, Generic.Matrix.MultiplyAndAdd,
    Generic.Matrix.opCols, Generic.Matrix.opRows, Generic.Matrix.opGet, Bool.false_eq_true,
    if_false, ne_eq, not_true_eq_false, or_self]
  have hG : Generic.Matrix.mk G.numRows X.numCols G.data = G := by rw [← hgc]
  rw [hG]

theorem generic_BackpropToRight_eval {α : Type} (K : Generic.Arithmetic α)
    (a : Generic.LookupTableNode.BackpropArgs α) (w : Nat)
    (h0 : 1 ≤ a.inputFunctionValues.numCols)
    (hX : a.inputGradientValues.numRows = w * a.inputFunctionValues.numCols)
    (hw1 : 1 ≤ w) (hw : w < 2 ^ 31)
    (hc : a.inputGradientValues.numCols * w < 2 ^ 64)
    (hgr : a.gradientValues.numRows = a.inputFunctionValues.numRows * w)
    (hgc : a.gradientValues.numCols = a.inputGradientValues.numCols) :
    Generic.LookupTableNode.BackpropToRight K a =
      (none, ⟨a.inputFunctionValues,
        Generic.Matrix.mk a.inputGradientValues.numRows a.inputGradientValues.numCols (fun o =>
          if o < a.inputFunctionValues.numCols * (a.inputGradientValues.numCols * w) then
            K.productAdd a.inputFunctionValues.numCols (a.inputGradientValues.numCols * w)
              a.inputFunctionValues.numRows
              (o % a.inputFunctionValues.numCols) (o / a.inputFunctionValues.numCols)
              (a.inputGradientValues.data o)
              (fun t => a.inputFunctionValues.get t (o % a.inputFunctionValues.numCols))
              (fun t => (Generic.Matrix.mk a.inputFunctionValues.numRows
                (a.inputGradientValues.numCols * w) a.gradientValues.data).get
                  t (o / a.inputFunctionValues.numCols))
          else a.inputGradientValues.data o),
        a.gradientValues⟩) := by
  obtain ⟨E, D, G⟩ := a
  simp only at h0 hX hw1 hw hc hgr hgc ⊢
  have hq : D.numRows / E.numCols = w := by rw [hX]; exact Nat.mul_div_cancel _ (by omega)
  have hn : toSizeT (narrowToInt w) = w := narrow_small w hw
  have hm2 : mulSizeT D.numCols w = D.numCols * w := Nat.mod_eq_of_lt hc
  have hd : D.numRows / w = E.numCols := by rw [hX]; exact Nat.mul_div_cancel_left _ (by omega)
  have hdg : G.numRows / w = E.numRows := by rw [hgr]; exact Nat.mul_div_cancel _ (by omega)
  have hc0 : E.numCols ≠ 0 := by omega
  have hw0 : w ≠ 0 := by omega
  have e1 : E.numCols * (D.numCols * w) = D.numRows * D.numCols := by rw [hX]; ring
  have e2 : E.numRows * (D.numCols * w) = G.numRows * D.numCols := by rw [hgr]; ring
  simp only [Generic.LookupTableNode.BackpropToRight, hq, hn, hm2, hd, hdg, hgc, if_neg hc0,
    if_neg hw0, Generic.Matrix.Reshaped, e1, e2, if_true, Generic.Matrix.MultiplyAndAdd,
    Generic.Matrix.opCols, Generic.Matrix.opRows, Generic.Matrix.opGet, Bool.false_eq_true,
    if_false, ne_eq, not_true_eq_false, or_self]
  have hG : Generic.Matrix.mk G.numRows D.numCols G.data = G := by rw [← hgc]
  rw [hG]

theorem generic_BackpropToLeft_entry {α : Type} (K : Generic.Arithmetic α)
    (a : Generic.LookupTableNode.BackpropArgs α) (w : Nat)
    (h0 : 1 ≤ a.inputGradientValues.numCols)
    (hX : a.inputFunctionValues.numRows = w * a.inputGradientValues.numCols)
    (hw1 : 1 ≤ w) (hw : w < 2 ^ 31)
    (hc : a.inputFunctionValues.numCols * w < 2 ^ 64)
    (hgr : a.gradientValues.numRows = a.inputGradientValues.numRows * w)
    (hgc : a.gradientValues.numCols = a.inputFunctionValues.numCols)
    (i k : Nat) (hi : i < a.inputGradientValues.numRows)
    (hk : k < a.inputGradientValues.numCols) :
    (Generic.LookupTableNode.BackpropToLeft K a).2.inputGradientValues.get i k =
      K.productAdd a.inputGradientValues.numRows a.inputGradientValues.numCols
        (a.inputFunctionValues.numCols * w) i k (a.inputGradientValues.get i k)
        (fun c => a.gradientValues.get ((c % w) * a.inputGradientValues.numRows + i) (c / w))
        (fun c =>
          a.inputFunctionValues.get ((c % w) * a.inputGradientValues.numCols + k) (c / w)) := by
  rw [generic_BackpropToLeft_eval K a w h0 hX hw1 hw hc hgr hgc]
  obtain ⟨X, D, G⟩ := a
  simp only at h0 hX hc hgr hgc hi hk ⊢
  obtain ⟨hmod, hdiv⟩ := offset_div_mod D.numRows k i hi
  have hlt := offset_lt k D.numRows i D.numCols hk hi
  simp only [Generic.Matrix.get, if_pos hlt, hmod, hdiv]
  congr 1
  · funext c
    rw [hgr, split_offset]
  · funext c
    rw [hX, Nat.mul_comm w D.numCols, split_offset]

theorem generic_BackpropToRight_entry {α : Type} (K : Generic.Arithmetic α)
    (a : Generic.LookupTableNode.BackpropArgs α) (w : Nat)
    (h0 : 1 ≤ a.inputFunctionValues.numCols)
    (hX : a.inputGradientValues.numRows = w * a.inputFunctionValues.numCols)
    (hw1 : 1 ≤ w) (hw : w < 2 ^ 31)
    (hc : a.inputGradientValues.numCols * w < 2 ^ 64)
    (hgr : a.gradientValues.numRows = a.inputFunctionValues.numRows * w)
    (hgc : a.gradientValues.numCols = a.inputGradientValues.numCols)
    (p k j : Nat) (hp : p < w) (hk : k < a.inputFunctionValues.numCols)
    (hj : j < a.inputGradientValues.numCols) :
    (Generic.LookupTableNode.BackpropToRight K a).2.inputGradientValues.get
        (p * a.inputFunctionValues.numCols + k) j =
      K.productAdd a.inputFunctionValues.numCols (a.inputGradientValues.numCols * w)
        a.inputFunctionValues.numRows k (j * w + p)
        (a.inputGradientValues.get (p * a.inputFunctionValues.numCols + k) j)
        (fun i => a.inputFunctionValues.get i k)
        (fun i => a.gradientValues.get (p * a.inputFunctionValues.numRows + i) j) := by
  rw [generic_BackpropToRight_eval K a w h0 hX hw1 hw hc hgr hgc]
  obtain ⟨E, D, G⟩ := a
  simp only at h0 hX hc hgr hgc hk hj ⊢
  have hidx : j * D.numRows + (p * E.numCols + k) = (j * w + p) * E.numCols + k := by
    rw [hX]; ring
  have hlt := offset_lt (j * w + p) E.numCols k (D.numCols * w)
    (stacked_column_lt j p w D.numCols hj hp) hk
  obtain ⟨hmod, hdiv⟩ := offset_div_mod E.numCols (j * w + p) k hk
  simp only [Generic.Matrix.get, hidx, if_pos hlt, hmod, hdiv]
  congr 1
  funext i
  rw [hgr]
  congr 1
  ring

theorem sum_stacked (F : Nat → Nat → Int) (n w : Nat) :
    ∑ c in Finset.range (n * w), F (c % w) (c / w) =
      ∑ j in Finset.range n, ∑ p in Finset.range w, F p j := by
  rw [sum_range_mul_block]
  refine Finset.sum_congr rfl fun j _ => Finset.sum_congr rfl fun p hp => ?_
  obtain ⟨hmod, hdiv⟩ := offset_div_mod w j p (Finset.mem_range.mp hp)
  rw [hmod, hdiv]

theorem exact_productAdd (m n k i j : Nat) (old : Int) (u v : Nat → Int) :
    Generic.exactArithmetic.productAdd m n k i j old u v =
      old + ∑ t in Finset.range k, u t * v t := by
  simp only [Generic.exactArithmetic, sumTo_eq_sum]

/-- C3 (amended). `LookupTableNode::BackpropTo` with `inputIndex = 0`, for every element
type and arithmetic of the matrix library, `rows1 = w * cols0` with `w >= 1` within the
`int` range and an input-1 slice held in memory: the call succeeds, masks the gaps of
the input-1 value and of the output gradient (a padding column becomes zero, any other
column is unchanged), and every entry `(i, k)` of the embedding matrix's gradient
becomes what the library's accumulating product leaves there: the old entry combined
with the products of `G[p*embDim + i, j]` and `X[p*cols0 + k, j]` over all columns `j`
and word positions `p`, with `X` and `G` the masked slices. When the arithmetic is
exact this is the old entry plus the sum of these products, and a padding column
contributes 0. -/
theorem BackpropTo_left_accumulates :
    (∀ (α : Type) (K : Generic.Arithmetic α) (n : Generic.LookupTableNode α) (w : Nat),
      1 ≤ n.input0Gradient.numCols →
      n.input1Value.numRows = w * n.input0Gradient.numCols →
      1 ≤ w → w < 2 ^ 31 → n.input1Value.Valid →
      n.gradient.numRows = n.input0Gradient.numRows * w →
      n.gradient.numCols = n.input1Value.numCols →
      (Generic.LookupTableNode.BackpropTo K 0 n).1 = none ∧
      (Generic.LookupTableNode.BackpropTo K 0 n).2.input1Value =
        n.input1Value.MaskGaps K n.input1Gaps ∧
      (Generic.LookupTableNode.BackpropTo K 0 n).2.gradient = n.gradient.MaskGaps K n.gaps ∧
      (∀ i k, i < n.input0Gradient.numRows → k < n.input0Gradient.numCols →
        (Generic.LookupTableNode.BackpropTo K 0 n).2.input0Gradient.get i k =
          K.productAdd n.input0Gradient.numRows n.input0Gradient.numCols
            (n.input1Value.numCols * w) i k (n.input0Gradient.get i k)
            (fun c => (n.gradient.MaskGaps K n.gaps).get
              ((c % w) * n.input0Gradient.numRows + i) (c / w))
            (fun c => (n.input1Value.MaskGaps K n.input1Gaps).get
              ((c % w) * n.input0Gradient.numCols + k) (c / w))) ∧
      (∀ j r, j < n.gradient.numCols → r < n.gradient.numRows →
        (n.gradient.MaskGaps K n.gaps).get r j =
          if n.gaps j = true then K.zero else n.gradient.get r j) ∧
      (∀ j r, j < n.input1Value.numCols → r < n.input1Value.numRows →
        (n.input1Value.MaskGaps K n.input1Gaps).get r j =
          if n.input1Gaps j = true then K.zero else n.input1Value.get r j)) ∧
    (∀ (n : Generic.LookupTableNode Int) (w : Nat),
      1 ≤ n.input0Gradient.numCols →
      n.input1Value.numRows = w * n.input0Gradient.numCols →
      1 ≤ w → w < 2 ^ 31 → n.input1Value.Valid →
      n.gradient.numRows = n.input0Gradient.numRows * w →
      n.gradient.numCols = n.input1Value.numCols →
      (∀ i k, i < n.input0Gradient.numRows → k < n.input0Gradient.numCols →
        (Generic.LookupTableNode.BackpropTo Generic.exactArithmetic 0 n).2.input0Gradient.get i k =
          n.input0Gradient.get i k +
            ∑ j in Finset.range n.input1Value.numCols, ∑ p in Finset.range w,
              (n.gradient.MaskGaps Generic.exactArithmetic n.gaps).get
                (p * n.input0Gradient.numRows + i) j *
              (n.input1Value.MaskGaps Generic.exactArithmetic n.input1Gaps).get
                (p * n.input0Gradient.numCols + k) j) ∧
      (∀ j p i k, j < n.input1Value.numCols → p < w →
        i < n.input0Gradient.numRows → k < n.input0Gradient.numCols →
        (n.gaps j = true ∨ n.input1Gaps j = true) →
        (n.gradient.MaskGaps Generic.exactArithmetic n.gaps).get
            (p * n.input0Gradient.numRows + i) j *
          (n.input1Value.MaskGaps Generic.exactArithmetic n.input1Gaps).get
            (p * n.input0Gradient.numCols + k) j = 0)) := by
  have main : ∀ (α : Type) (K : Generic.Arithmetic α) (n : Generic.LookupTableNode α)
      (w : Nat),
      1 ≤ n.input0Gradient.numCols →
      n.input1Value.numRows = w * n.input0Gradient.numCols →
      1 ≤ w → w < 2 ^ 31 → n.input1Value.Valid →
      n.gradient.numRows = n.input0Gradient.numRows * w →
      n.gradient.numCols = n.input1Value.numCols →
      (Generic.LookupTableNode.BackpropTo K 0 n).1 = none ∧
      ∀ i k, i < n.input0Gradient.numRows → k < n.input0Gradient.numCols →
        (Generic.LookupTableNode.BackpropTo K 0 n).2.input0Gradient.get i k =
          K.productAdd n.input0Gradient.numRows n.input0Gradient.numCols
            (n.input1Value.numCols * w) i k (n.input0Gradient.get i k)
            (fun c => (n.gradient.MaskGaps K n.gaps).get
              ((c % w) * n.input0Gradient.numRows + i) (c / w))
            (fun c => (n.input1Value.MaskGaps K n.input1Gaps).get
              ((c % w) * n.input0Gradient.numCols + k) (c / w)) := by
    intro α K n w h0 hX hw1 hw hXv hgr hgc
    have hc := generic_valid_cols_stack n.input1Value w _ hXv hX h0
    have hev := generic_BackpropToLeft_eval K
      ⟨n.input1Value.MaskGaps K n.input1Gaps, n.input0Gradient, n.gradient.MaskGaps K n.gaps⟩ w
      h0 hX hw1 hw hc hgr hgc
    refine ⟨by simp only [Generic.LookupTableNode.BackpropTo, if_true, hev], ?_⟩
    intro i k hi hk
    exact generic_BackpropToLeft_entry K
      ⟨n.input1Value.MaskGaps K n.input1Gaps, n.input0Gradient, n.gradient.MaskGaps K n.gaps⟩ w
      h0 hX hw1 hw hc hgr hgc i k hi hk
  refine ⟨?_, ?_⟩
  · intro α K n w h0 hX hw1 hw hXv hgr hgc
    obtain ⟨he, hentry⟩ := main α K n w h0 hX hw1 hw hXv hgr hgc
    exact ⟨he, rfl, rfl, hentry,
      fun j r hj hr => generic_MaskGaps_get K _ _ r j hr hj,
      fun j r hj hr => generic_MaskGaps_get K _ _ r j hr hj⟩
  · intro n w h0 hX hw1 hw hXv hgr hgc
    obtain ⟨_, hentry⟩ := main Int Generic.exactArithmetic n w h0 hX hw1 hw hXv hgr hgc
    refine ⟨?_, ?_⟩
    · intro i k hi hk
      rw [hentry i k hi hk, exact_productAdd]
      rw [sum_stacked (fun p j =>
        (n.gradient.MaskGaps Generic.exactArithmetic n.gaps).get
            (p * n.input0Gradient.numRows + i) j *
          (n.input1Value.MaskGaps Generic.exactArithmetic n.input1Gaps).get
            (p * n.input0Gradient.numCols + k) j)]
    · intro j p i k hj hp hi hk hgap
      have hrG : p * n.input0Gradient.numRows + i < n.gradient.numRows := by
        rw [hgr]
        exact offset_lt p n.input0Gradient.numRows i w hp hi
      have hrX : p * n.input0Gradient.numCols + k < n.input1Value.numRows := by
        rw [hX, Nat.mul_comm w]
        exact offset_lt p n.input0Gradient.numCols k w hp hk
      rw [generic_MaskGaps_get _ _ _ _ _ hrG (hgc ▸ hj), generic_MaskGaps_get _ _ _ _ _ hrX hj]
      rcases hgap with h | h
      · rw [if_pos h]; exact zero_mul _
      · rw [if_pos h]; exact mul_zero _

/-- C3, witness: two words per sample, second column padding, single precision. -/
theorem BackpropTo_left_accumulates_witness :
    (1 ≤ genericNode.input0Gradient.numCols ∧
      genericNode.input1Value.numRows = 2 * genericNode.input0Gradient.numCols ∧
      genericNode.input1Value.Valid) ∧
    (Generic.LookupTableNode.BackpropTo Generic.singleArithmetic 0 genericNode).1 = none ∧
    (Generic.LookupTableNode.BackpropTo Generic.singleArithmetic 0 genericNode).2.input0Gradient.get
        1 2 =
      Generic.singleArithmetic.productAdd 2 3 (2 * 2) 1 2 (genericNode.input0Gradient.get 1 2)
        (fun c => (genericNode.gradient.MaskGaps Generic.singleArithmetic genericNode.gaps).get
          ((c % 2) * 2 + 1) (c / 2))
        (fun c =>
          (genericNode.input1Value.MaskGaps Generic.singleArithmetic genericNode.input1Gaps).get
            ((c % 2) * 3 + 2) (c / 2)) :=
  have h := BackpropTo_left_accumulates.1 Int Generic.singleArithmetic genericNode 2
    (by decide) (by decide) (by decide) (by decide) (by unfold Generic.Matrix.Valid; decide)
    (by decide) (by decide)
  ⟨⟨by decide, by decide, by unfold Generic.Matrix.Valid; decide⟩, h.1,
    h.2.2.2.1 1 2 (by decide) (by decide)⟩

/-- C3, counterexample to the claim as stated, in two parts. With `cols0 = 1` and
`rows1 = 2^32` (so `w = 2^32 >= 1`), `int wordsInEachSample` is 0 and
`rows1 / wordsInEachSample` divides by zero; nothing is accumulated, while the claimed
sum is 2^32. With one word per sample, `G = (1)`, `X = (1, 1)` and an old gradient of
2^24 in single precision arithmetic the call succeeds and entry `(0,1)` stays 16777216,
while the old value plus the sum of the claim is 16777217. -/
theorem BackpropTo_left_counterexample :
    (1 ≤ wideNode.input0Gradient.numCols ∧
      wideNode.input1Value.numRows = 2 ^ 32 * wideNode.input0Gradient.numCols ∧
      wideNode.input1Value.Valid ∧
      wideNode.gradient.numRows = wideNode.input0Gradient.numRows * 2 ^ 32 ∧
      wideNode.gradient.numCols = wideNode.input1Value.numCols ∧
      (Generic.LookupTableNode.BackpropTo Generic.exactArithmetic 0 wideNode).1 =
        some Err.divideByZero ∧
      (Generic.LookupTableNode.BackpropTo Generic.exactArithmetic 0 wideNode).2.input0Gradient.get
          0 0 ≠
        wideNode.input0Gradient.get 0 0 +
          ∑ j in Finset.range wideNode.input1Value.numCols, ∑ p in Finset.range (2 ^ 32),
            (wideNode.gradient.MaskGaps Generic.exactArithmetic wideNode.gaps).get
              (p * wideNode.input0Gradient.numRows + 0) j *
            (wideNode.input1Value.MaskGaps Generic.exactArithmetic wideNode.input1Gaps).get
              (p * wideNode.input0Gradient.numCols + 0) j) ∧
    (1 ≤ roundingNode.input0Gradient.numCols ∧
      roundingNode.input1Value.numRows = 1 * roundingNode.input0Gradient.numCols ∧
      roundingNode.input1Value.Valid ∧
      roundingNode.gradient.numRows = roundingNode.input0Gradient.numRows * 1 ∧
      roundingNode.gradient.numCols = roundingNode.input1Value.numCols ∧
      (Generic.LookupTableNode.BackpropTo Generic.singleArithmetic 0 roundingNode).1 = none ∧
      (Generic.LookupTableNode.BackpropTo Generic.singleArithmetic 0
          roundingNode).2.input0Gradient.get 0 1 = 16777216 ∧
      roundingNode.input0Gradient.get 0 1 +
          ∑ j in Finset.range roundingNode.input1Value.numCols, ∑ p in Finset.range 1,
            (roundingNode.gradient.MaskGaps Generic.singleArithmetic roundingNode.gaps).get
              (p * roundingNode.input0Gradient.numRows + 0) j *
            (roundingNode.input1Value.MaskGaps Generic.singleArithmetic
              roundingNode.input1Gaps).get (p * roundingNode.input0Gradient.numCols + 1) j =
        16777217) := by
  refine ⟨⟨by decide, by decide, by unfold Generic.Matrix.Valid; decide, by decide, by decide,
    by decide, ?_⟩,
    ⟨by decide, by decide, by unfold Generic.Matrix.Valid; decide, by decide, by decide,
    by decide, by decide, by decide⟩⟩
  have hl : (Generic.LookupTableNode.BackpropTo Generic.exactArithmetic 0
      wideNode).2.input0Gradient.get 0 0 = 0 := by decide
  have hterm : ∀ p ∈ Finset.range (2 ^ 32),
      (wideNode.gradient.MaskGaps Generic.exactArithmetic wideNode.gaps).get
          (p * wideNode.input0Gradient.numRows + 0) 0 *
        (wideNode.input1Value.MaskGaps Generic.exactArithmetic wideNode.input1Gaps).get
          (p * wideNode.input0Gradient.numCols + 0) 0 = 1 := by
    intro p _
    simp [Generic.Matrix.get, Generic.Matrix.MaskGaps, wideNode, Generic.Matrix.constant]
  have hcols : wideNode.input1Value.numCols = 1 := rfl
  rw [hl, hcols, Finset.sum_range_one, Finset.sum_congr rfl hterm]
  simp [wideNode, Generic.Matrix.get, Generic.Matrix.constant]

/-- C4 (amended). `LookupTableNode::BackpropTo` with `inputIndex = 1`, for every element
type and arithmetic of the matrix library, `rows1 = w * cols0` with `w >= 1` within the
`int` range and an input-1 gradient slice held in memory: the call succeeds, the
gradient of input 1 keeps its `rows1 x cols1` shape, and every entry `(p*cols0 + k, j)`
of it becomes what the library's accumulating product leaves there: the old entry
combined with the products of `E[i,k]` and `G[p*embDim + i, j]` over `i < embDim`.
When the arithmetic is exact this is the old entry plus the sum of these products. In
the self-test, after the two `BackpropTo` calls, the entries `(0,0)`, `(0,1)`, `(1,0)`
and `(2,1)` of the input-1 gradient are 2, in exact and in single precision
arithmetic. -/
theorem BackpropTo_right_accumulates :
    (∀ (α : Type) (K : Generic.Arithmetic α) (n : Generic.LookupTableNode α) (w : Nat),
      1 ≤ n.input0Value.numCols → n.input1Gradient.numRows = w * n.input0Value.numCols →
      1 ≤ w → w < 2 ^ 31 → n.input1Gradient.Valid →
      n.gradient.numRows = n.input0Value.numRows * w →
      n.gradient.numCols = n.input1Gradient.numCols →
      (Generic.LookupTableNode.BackpropTo K 1 n).1 = none ∧
      (Generic.LookupTableNode.BackpropTo K 1 n).2.input1Gradient.numRows =
        n.input1Gradient.numRows ∧
      (Generic.LookupTableNode.BackpropTo K 1 n).2.input1Gradient.numCols =
        n.input1Gradient.numCols ∧
      (Generic.LookupTableNode.BackpropToRight K
        ⟨n.input0Value, n.input1Gradient, n.gradient⟩).2.inputGradientValues.numRows =
        n.input1Gradient.numRows ∧
      (Generic.LookupTableNode.BackpropToRight K
        ⟨n.input0Value, n.input1Gradient, n.gradient⟩).2.inputGradientValues.numCols =
        n.input1Gradient.numCols ∧
      (∀ p k j, p < w → k < n.input0Value.numCols → j < n.input1Gradient.numCols →
        (Generic.LookupTableNode.BackpropTo K 1 n).2.input1Gradient.get
            (p * n.input0Value.numCols + k) j =
          K.productAdd n.input0Value.numCols (n.input1Gradient.numCols * w)
            n.input0Value.numRows k (j * w + p)
            (n.input1Gradient.get (p * n.input0Value.numCols + k) j)
            (fun i => n.input0Value.get i k)
            (fun i => n.gradient.get (p * n.input0Value.numRows + i) j))) ∧
    (∀ (n : Generic.LookupTableNode Int) (w : Nat),
      1 ≤ n.input0Value.numCols → n.input1Gradient.numRows = w * n.input0Value.numCols →
      1 ≤ w → w < 2 ^ 31 → n.input1Gradient.Valid →
      n.gradient.numRows = n.input0Value.numRows * w →
      n.gradient.numCols = n.input1Gradient.numCols →
      ∀ p k j, p < w → k < n.input0Value.numCols → j < n.input1Gradient.numCols →
        (Generic.LookupTableNode.BackpropTo Generic.exactArithmetic 1 n).2.input1Gradient.get
            (p * n.input0Value.numCols + k) j =
          n.input1Gradient.get (p * n.input0Value.numCols + k) j +
            ∑ i in Finset.range n.input0Value.numRows,
              n.input0Value.get i k * n.gradient.get (p * n.input0Value.numRows + i) j) ∧
    (((Generic.LookupTableNode.BackpropTo Generic.exactArithmetic 1
          (Generic.LookupTableNode.BackpropTo Generic.exactArithmetic 0
            (Generic.LookupTableNode.unitTestNode 3)).2).1 = none ∧
        (Generic.LookupTableNode.BackpropTo Generic.exactArithmetic 1
          (Generic.LookupTableNode.BackpropTo Generic.exactArithmetic 0
            (Generic.LookupTableNode.unitTestNode 3)).2).2.input1Gradient.get 0 0 = 2 ∧
        (Generic.LookupTableNode.BackpropTo Generic.exactArithmetic 1
          (Generic.LookupTableNode.BackpropTo Generic.exactArithmetic 0
            (Generic.LookupTableNode.unitTestNode 3)).2).2.input1Gradient.get 0 1 = 2 ∧
        (Generic.LookupTableNode.BackpropTo Generic.exactArithmetic 1
          (Generic.LookupTableNode.BackpropTo Generic.exactArithmetic 0
            (Generic.LookupTableNode.unitTestNode 3)).2).2.input1Gradient.get 1 0 = 2 ∧
        (Generic.LookupTableNode.BackpropTo Generic.exactArithmetic 1
          (Generic.LookupTableNode.BackpropTo Generic.exactArithmetic 0
            (Generic.LookupTableNode.unitTestNode 3)).2).2.input1Gradient.get 2 1 = 2) ∧
      ((Generic.LookupTableNode.BackpropTo Generic.singleArithmetic 1
          (Generic.LookupTableNode.BackpropTo Generic.singleArithmetic 0
            (Generic.LookupTableNode.unitTestNode 3)).2).1 = none ∧
        (Generic.LookupTableNode.BackpropTo Generic.singleArithmetic 1
          (Generic.LookupTableNode.BackpropTo Generic.singleArithmetic 0
            (Generic.LookupTableNode.unitTestNode 3)).2).2.input1Gradient.get 0 0 = 2 ∧
        (Generic.LookupTableNode.BackpropTo Generic.singleArithmetic 1
          (Generic.LookupTableNode.BackpropTo Generic.singleArithmetic 0
            (Generic.LookupTableNode.unitTestNode 3)).2).2.input1Gradient.get 0 1 = 2 ∧
        (Generic.LookupTableNode.BackpropTo Generic.singleArithmetic 1
          (Generic.LookupTableNode.BackpropTo Generic.singleArithmetic 0
            (Generic.LookupTableNode.unitTestNode 3)).2).2.input1Gradient.get 1 0 = 2 ∧
        (Generic.LookupTableNode.BackpropTo Generic.singleArithmetic 1
          (Generic.LookupTableNode.BackpropTo Generic.singleArithmetic 0
            (Generic.LookupTableNode.unitTestNode 3)).2).2.input1Gradient.get 2 1 = 2)) := by
  have main : ∀ (α : Type) (K : Generic.Arithmetic α) (n : Generic.LookupTableNode α)
      (w : Nat),
      1 ≤ n.input0Value.numCols → n.input1Gradient.numRows = w * n.input0Value.numCols →
      1 ≤ w → w < 2 ^ 31 → n.input1Gradient.Valid →
      n.gradient.numRows = n.input0Value.numRows * w →
      n.gradient.numCols = n.input1Gradient.numCols →
      (Generic.LookupTableNode.BackpropTo K 1 n).1 = none ∧
      (Generic.LookupTableNode.BackpropToRight K
        ⟨n.input0Value, n.input1Gradient, n.gradient⟩).2.inputGradientValues.numRows =
        n.input1Gradient.numRows ∧
      (Generic.LookupTableNode.BackpropToRight K
        ⟨n.input0Value, n.input1Gradient, n.gradient⟩).2.inputGradientValues.numCols =
        n.input1Gradient.numCols ∧
      (∀ p k j, p < w → k < n.input0Value.numCols → j < n.input1Gradient.numCols →
        (Generic.LookupTableNode.BackpropTo K 1 n).2.input1Gradient.get
            (p * n.input0Value.numCols + k) j =
          K.productAdd n.input0Value.numCols (n.input1Gradient.numCols * w)
            n.input0Value.numRows k (j * w + p)
            (n.input1Gradient.get (p * n.input0Value.numCols + k) j)
            (fun i => n.input0Value.get i k)
            (fun i => n.gradient.get (p * n.input0Value.numRows + i) j)) := by
    intro α K n w h0 hX hw1 hw hXv hgr hgc
    have hc := generic_valid_cols_stack n.input1Gradient w _ hXv hX h0
    have hev := generic_BackpropToRight_eval K ⟨n.input0Value, n.input1Gradient, n.gradient⟩ w
      h0 hX hw1 hw hc hgr hgc
    have hnode : (Generic.LookupTableNode.BackpropTo K 1 n).2.input1Gradient =
        (Generic.LookupTableNode.BackpropToRight K
          ⟨n.input0Value, n.input1Gradient, n.gradient⟩).2.inputGradientValues := by
      simp only [Generic.LookupTableNode.BackpropTo, if_true, hev]
      rfl
    refine ⟨?_, by rw [hev], by rw [hev], ?_⟩
    · simp only [Generic.LookupTableNode.BackpropTo, if_true, hev]
      rfl
    · intro p k j hp hk hj
      rw [hnode]
      exact generic_BackpropToRight_entry K ⟨n.input0Value, n.input1Gradient, n.gradient⟩ w
        h0 hX hw1 hw hc hgr hgc p k j hp hk hj
  refine ⟨?_, ?_, ?_⟩
  · intro α K n w h0 hX hw1 hw hXv hgr hgc
    obtain ⟨h1, h2, h3, h4⟩ := main α K n w h0 hX hw1 hw hXv hgr hgc
    exact ⟨h1, rfl, rfl, h2, h3, h4⟩
  · intro n w h0 hX hw1 hw hXv hgr hgc p k j hp hk hj
    obtain ⟨_, _, _, h4⟩ := main Int Generic.exactArithmetic n w h0 hX hw1 hw hXv hgr hgc
    rw [h4 p k j hp hk hj, exact_productAdd]
  · refine ⟨⟨by decide, by decide, by decide, by decide, by decide⟩,
      ⟨by decide, by decide, by decide, by decide, by decide⟩⟩

/-- C4, witness: two words per sample, single precision. -/
theorem BackpropTo_right_accumulates_witness :
    (1 ≤ genericNode.input0Value.numCols ∧
      genericNode.input1Gradient.numRows = 2 * genericNode.input0Value.numCols ∧
      genericNode.input1Gradient.Valid) ∧
    (Generic.LookupTableNode.BackpropTo Generic.singleArithmetic 1 genericNode).1 = none ∧
    (Generic.LookupTableNode.BackpropTo Generic.singleArithmetic 1 genericNode).2.input1Gradient.get
        (1 * 3 + 2) 1 =
      Generic.singleArithmetic.productAdd 3 (2 * 2) 2 2 (1 * 2 + 1)
        (genericNode.input1Gradient.get (1 * 3 + 2) 1)
        (fun i => genericNode.input0Value.get i 2)
        (fun i => genericNode.gradient.get (1 * 2 + i) 1) :=
  have h := BackpropTo_right_accumulates.1 Int Generic.singleArithmetic genericNode 2
    (by decide) (by decide) (by decide) (by decide) (by unfold Generic.Matrix.Valid; decide)
    (by decide) (by decide)
  ⟨⟨by decide, by decide, by unfold Generic.Matrix.Valid; decide⟩, h.1,
    h.2.2.2.2.2 1 2 1 (by decide) (by decide) (by decide)⟩

/-- C4, counterexample to the claim as stated, in two parts. With `cols0 = 1` and
`rows1 = 2^32` (so `w = 2^32 >= 1`), `int wordsInEachSample` is 0 and
`rows1 / wordsInEachSample` divides by zero; entry `(0,0)` of the input-1 gradient
stays 0 instead of growing by `E[0,0] * G[0,0] = 1`. With one word per sample,
`E = (2^24, 1)`, `G = (1)` and an old gradient of 2^24 in single precision arithmetic
the call succeeds and entry `(1,0)` stays 16777216, while the old value plus the sum of
the claim is 16777217. -/
theorem BackpropTo_right_counterexample :
    (1 ≤ wideNode.input0Value.numCols ∧
      wideNode.input1Gradient.numRows = 2 ^ 32 * wideNode.input0Value.numCols ∧
      wideNode.input1Gradient.Valid ∧
      wideNode.gradient.numRows = wideNode.input0Value.numRows * 2 ^ 32 ∧
      wideNode.gradient.numCols = wideNode.input1Gradient.numCols ∧
      (Generic.LookupTableNode.BackpropTo Generic.exactArithmetic 1 wideNode).1 =
        some Err.divideByZero ∧
      (Generic.LookupTableNode.BackpropTo Generic.exactArithmetic 1 wideNode).2.input1Gradient.get
          (0 * wideNode.input0Value.numCols + 0) 0 ≠
        wideNode.input1Gradient.get (0 * wideNode.input0Value.numCols + 0) 0 +
          ∑ i in Finset.range wideNode.input0Value.numRows,
            wideNode.input0Value.get i 0 *
              wideNode.gradient.get (0 * wideNode.input0Value.numRows + i) 0) ∧
    (1 ≤ roundingNode.input0Value.numCols ∧
      roundingNode.input1Gradient.numRows = 1 * roundingNode.input0Value.numCols ∧
      roundingNode.input1Gradient.Valid ∧
      roundingNode.gradient.numRows = roundingNode.input0Value.numRows * 1 ∧
      roundingNode.gradient.numCols = roundingNode.input1Gradient.numCols ∧
      (Generic.LookupTableNode.BackpropTo Generic.singleArithmetic 1 roundingNode).1 = none ∧
      (Generic.LookupTableNode.BackpropTo Generic.singleArithmetic 1
          roundingNode).2.input1Gradient.get
          (0 * roundingNode.input0Value.numCols + 1) 0 = 16777216 ∧
      roundingNode.input1Gradient.get (0 * roundingNode.input0Value.numCols + 1) 0 +
          ∑ i in Finset.range roundingNode.input0Value.numRows,
            roundingNode.input0Value.get i 1 *
              roundingNode.gradient.get (0 * roundingNode.input0Value.numRows + i) 0 =
        16777217) := by
  refine ⟨⟨by decide, by decide, by unfold Generic.Matrix.Valid; decide, by decide, by decide,
    by decide, by decide⟩,
    ⟨by decide, by decide, by unfold Generic.Matrix.Valid; decide, by decide, by decide,
    by decide, by decide, by decide⟩⟩

/-- C5 (amended). In the self-test scenario, after `BackpropTo(0)` the gradient of the
embedding matrix is `G x X^T`: each entry of column 0 is 1 (the value `X[0,0]`), each
entry of column 1 is 2 (the value `X[1,1]`) and each entry of column 2 is 0, both with
the 3 x 3 index input of the source and with a 3 x 2 one. -/
theorem BackpropTo_left_unit_test :
    ((BackpropTo 0 (unitTestNode 3)).1 = none ∧
      (BackpropTo 0 (unitTestNode 3)).2.input0Gradient.get 0 0 = 1 ∧
      (BackpropTo 0 (unitTestNode 3)).2.input0Gradient.get 1 0 = 1 ∧
      (BackpropTo 0 (unitTestNode 3)).2.input0Gradient.get 0 1 = 2 ∧
      (BackpropTo 0 (unitTestNode 3)).2.input0Gradient.get 1 1 = 2 ∧
      (BackpropTo 0 (unitTestNode 3)).2.input0Gradient.get 0 2 = 0 ∧
      (BackpropTo 0 (unitTestNode 3)).2.input0Gradient.get 1 2 = 0) ∧
    ((BackpropTo 0 (unitTestNode 2)).1 = none ∧
      (BackpropTo 0 (unitTestNode 2)).2.input0Gradient.get 0 0 = 1 ∧
      (BackpropTo 0 (unitTestNode 2)).2.input0Gradient.get 1 0 = 1 ∧
      (BackpropTo 0 (unitTestNode 2)).2.input0Gradient.get 0 1 = 2 ∧
      (BackpropTo 0 (unitTestNode 2)).2.input0Gradient.get 1 1 = 2 ∧
      (BackpropTo 0 (unitTestNode 2)).2.input0Gradient.get 0 2 = 0 ∧
      (BackpropTo 0 (unitTestNode 2)).2.input0Gradient.get 1 2 = 0) := by
  refine ⟨⟨by decide, by decide, by decide, by decide, by decide, by decide, by decide⟩,
    ⟨by decide, by decide, by decide, by decide, by decide, by decide, by decide⟩⟩

/-- C5, counterexample to the claim as stated: row 0 of `X` has the nonzero entry
`X[0,0] = 1`, yet entry `(0,0)` of the embedding matrix's gradient is 1 after
`BackpropTo(0)`, not 2. -/
theorem BackpropTo_left_unit_test_counterexample :
    (unitTestNode 3).input1Value.get 0 0 ≠ 0 ∧
    (BackpropTo 0 (unitTestNode 3)).1 = none ∧
    (BackpropTo 0 (unitTestNode 3)).2.input0Gradient.get 0 0 ≠ 2 := by
  refine ⟨by decide, by decide, by decide⟩

/-- C6 (amended). `LookupTableNode::Validate` on the final validation pass, for
`cols0 >= 1`: it fails, and then with an invalid-argument error, exactly when the node
has no minibatch layout or `rows1 % cols0 != 0`; otherwise it declares a
one-dimensional shape with a minibatch layout whose row count is the `size_t` product
of `embeddingRows` and `rows1 / cols0`, and when that product fits into `size_t` the
row count is `embeddingRows * (rows1 / cols0)` and
`outputRows * cols0 = embeddingRows * rows1`. -/
theorem Validate_final_pass (hasMBLayout : Bool) (rows0 cols0 rows1 : Nat)
    (h0 : 1 ≤ cols0) :
    (Validate true hasMBLayout rows0 cols0 rows1 = .error .invalidArgument ↔
      (hasMBLayout = false ∨ rows1 % cols0 ≠ 0)) ∧
    ((∃ e, Validate true hasMBLayout rows0 cols0 rows1 = .error e) ↔
      (hasMBLayout = false ∨ rows1 % cols0 ≠ 0)) ∧
    (hasMBLayout = true → rows1 % cols0 = 0 →
      Validate true hasMBLayout rows0 cols0 rows1 =
        .ok ⟨TensorShape.vector (mulSizeT rows0 (rows1 / cols0)), true⟩) ∧
    (hasMBLayout = true → rows1 % cols0 = 0 → rows0 * (rows1 / cols0) < 2 ^ 64 →
      Validate true hasMBLayout rows0 cols0 rows1 =
        .ok ⟨TensorShape.vector (rows0 * (rows1 / cols0)), true⟩ ∧
      (rows0 * (rows1 / cols0)) * cols0 = rows0 * rows1) := by
  have hc0 : cols0 ≠ 0 := by omega
  have hok : hasMBLayout = true → rows1 % cols0 = 0 →
      Validate true hasMBLayout rows0 cols0 rows1 =
        .ok ⟨TensorShape.vector (mulSizeT rows0 (rows1 / cols0)), true⟩ := by
    intro hl hm
    simp [Validate, hl, hm, hc0]
  have hfail : (hasMBLayout = false ∨ rows1 % cols0 ≠ 0) →
      Validate true hasMBLayout rows0 cols0 rows1 = .error .invalidArgument := by
    intro h
    rcases h with h | h
    · simp [Validate, h]
    · simp [Validate, h, hc0]
  have hcases : (hasMBLayout = false ∨ rows1 % cols0 ≠ 0) ∨
      (hasMBLayout = true ∧ rows1 % cols0 = 0) := by
    cases hasMBLayout <;> by_cases hm : rows1 % cols0 = 0 <;> simp [hm]
  refine ⟨⟨?_, hfail⟩, ⟨?_, fun h => ⟨_, hfail h⟩⟩, hok, ?_⟩
  · intro h
    rcases hcases with hc | ⟨hl, hm⟩
    · exact hc
    · rw [hok hl hm] at h; cases h
  · rintro ⟨e, h⟩
    rcases hcases with hc | ⟨hl, hm⟩
    · exact hc
    · rw [hok hl hm] at h; cases h
  · intro hl hm hlt
    refine ⟨?_, ?_⟩
    · rw [hok hl hm, mulSizeT, Nat.mod_eq_of_lt hlt]
    · rw [Nat.mul_assoc, Nat.div_mul_cancel (Nat.dvd_of_mod_eq_zero hm)]

/-- C6, witness: 300 embedding rows, 50 columns, 150 index rows, with a layout. -/
theorem Validate_final_pass_witness :
    (1 ≤ 50 ∧ 150 % 50 = 0 ∧ 300 * (150 / 50) < 2 ^ 64) ∧
    Validate true true 300 50 150 = .ok ⟨TensorShape.vector (300 * (150 / 50)), true⟩ ∧
    (300 * (150 / 50)) * 50 = 300 * 150 :=
  ⟨⟨by decide, by decide, by decide⟩,
    (Validate_final_pass true 300 50 150 (by decide)).2.2.2 rfl (by decide) (by decide)⟩

/-- C6, counterexample to the claim as stated: with 2^32 embedding rows, one column and
2^32 index rows the `size_t` product wraps; the declared shape has 0 rows, not
`embeddingRows * (rows1 / cols0)`, and `outputRows * cols0` is not
`embeddingRows * rows1`. -/
theorem Validate_wrap_counterexample :
    (1 : Nat) ≤ 1 ∧ 2 ^ 32 % 1 = 0 ∧
    Validate true true (2 ^ 32) 1 (2 ^ 32) = .ok ⟨TensorShape.vector 0, true⟩ ∧
    TensorShape.vector 0 ≠ TensorShape.vector (2 ^ 32 * (2 ^ 32 / 1)) ∧
    0 * 1 ≠ 2 ^ 32 * 2 ^ 32 := by
  refine ⟨by decide, by decide, by rfl, by decide, by decide⟩

/-- C7. `InputValueBase::Load`: when the stored row count is nonzero and differs from
the element count of the loaded layout, the node is initialised with the flat vector
shape `[rows]` and the warning is printed; otherwise it is initialised with exactly
the loaded layout. Whenever the stored row count is nonzero the layout after `Load`
has that many elements, and the learning-rate multiplier after `Load` is 0. -/
theorem Load_sample_layout (n : InputValueBase) (f : InputValueBase.Serialized) :
    ((f.rows ≠ 0 ∧ f.rows ≠ f.sampleLayout.GetNumElements) →
      n.Load f = (n.Init (TensorShape.vector f.rows) n.m_isSparse, true) ∧
      (n.Load f).1.m_sampleLayout = TensorShape.vector f.rows) ∧
    (¬ (f.rows ≠ 0 ∧ f.rows ≠ f.sampleLayout.GetNumElements) →
      n.Load f = (n.Init f.sampleLayout n.m_isSparse, false) ∧
      (n.Load f).1.m_sampleLayout = f.sampleLayout) ∧
    (f.rows ≠ 0 → (n.Load f).1.m_sampleLayout.GetNumElements = f.rows) ∧
    (n.Load f).1.learningRateMultiplier = 0 := by
  have hinit : ∀ (s : TensorShape) (b : Bool),
      (n.Init s b).m_sampleLayout = s ∧ (n.Init s b).learningRateMultiplier = 0 := by
    intro s b
    cases b <;> exact ⟨rfl, rfl⟩
  have hvec : ∀ r : Nat, (TensorShape.vector r).GetNumElements = r := by
    intro r
    simp [TensorShape.vector, TensorShape.GetNumElements]
  by_cases h : f.rows ≠ 0 ∧ f.rows ≠ f.sampleLayout.GetNumElements
  · have hl : n.Load f = (n.Init (TensorShape.vector f.rows) n.m_isSparse, true) := by
      simp only [InputValueBase.Load, if_pos h]
    refine ⟨fun _ => ⟨hl, by rw [hl]; exact (hinit _ _).1⟩, fun h2 => absurd h h2, ?_, ?_⟩
    · intro _
      rw [hl]
      show (n.Init (TensorShape.vector f.rows) n.m_isSparse).m_sampleLayout.GetNumElements = _
      rw [(hinit _ _).1, hvec]
    · rw [hl]; exact (hinit _ _).2
  · have hl : n.Load f = (n.Init f.sampleLayout n.m_isSparse, false) := by
      simp only [InputValueBase.Load, if_neg h]
    refine ⟨fun h2 => absurd h2 h, fun _ => ⟨hl, by rw [hl]; exact (hinit _ _).1⟩, ?_, ?_⟩
    · intro hr
      rw [hl]
      show (n.Init f.sampleLayout n.m_isSparse).m_sampleLayout.GetNumElements = _
      rw [(hinit _ _).1]
      by_contra hne
      exact h ⟨hr, fun heq => hne heq.symm⟩
    · rw [hl]; exact (hinit _ _).2

/-- C7, witness: 12 stored rows against a stored layout of 2 x 3. -/
theorem Load_sample_layout_witness :
    (legacySerialized.rows ≠ 0 ∧
      legacySerialized.rows ≠ legacySerialized.sampleLayout.GetNumElements) ∧
    (sampleInputNode.Load legacySerialized).1.m_sampleLayout = TensorShape.vector 12 ∧
    (sampleInputNode.Load legacySerialized).1.m_sampleLayout.GetNumElements = 12 :=
  ⟨⟨by decide, by decide⟩,
    ((Load_sample_layout sampleInputNode legacySerialized).1 ⟨by decide, by decide⟩).2,
    (Load_sample_layout sampleInputNode legacySerialized).2.2.1 (by decide)⟩

/-- C8. `InputValueBase::UpdateFunctionMBSize` fails, and then with a logic error,
exactly when the row count of the value differs from the element count of the sample
layout, which is the product of its dimensions; in either case the node, its value and
its sample layout are left as they were, so after a call that returns normally the
row count of the value is the product of the sample-layout dimensions. -/
theorem UpdateFunctionMBSize_check (n : InputValueBase) :
    (n.UpdateFunctionMBSize.1 = some Err.logicError ↔
      n.value.numRows ≠ n.m_sampleLayout.dims.prod) ∧
    (n.UpdateFunctionMBSize.1 ≠ none ↔ n.value.numRows ≠ n.m_sampleLayout.dims.prod) ∧
    n.UpdateFunctionMBSize.2 = n ∧
    (n.UpdateFunctionMBSize.1 = none →
      n.UpdateFunctionMBSize.2.value.numRows =
        n.UpdateFunctionMBSize.2.m_sampleLayout.dims.prod) := by
  by_cases h : n.value.numRows = n.m_sampleLayout.dims.prod
  · simp [InputValueBase.UpdateFunctionMBSize, TensorShape.GetNumElements, h]
  · simp [InputValueBase.UpdateFunctionMBSize, TensorShape.GetNumElements, h]

/-- C8, witness: a value of 6 rows under a 2 x 3 layout passes the check. -/
theorem UpdateFunctionMBSize_check_witness :
    sampleInputNode.UpdateFunctionMBSize.1 = none ∧
    sampleInputNode.UpdateFunctionMBSize.2.value.numRows =
      sampleInputNode.UpdateFunctionMBSize.2.m_sampleLayout.dims.prod :=
  ⟨by decide, (UpdateFunctionMBSize_check sampleInputNode).2.2.2 (by decide)⟩

/-- C9. `EnvironmentInputNode`: `ReadOutVariable` fails, and then with an
invalid-argument error, exactly when the property name is not `isTraining`; for that
name every `ForwardPropNonLooping` call on a node whose value is 1 x 1 succeeds and
sets the scalar to 1 when the training flag is true at that moment and to 0 when it is
false, whatever an earlier call left there; `IsOutOfDateWrtInputs` is always true. -/
theorem EnvironmentInput_reads_flag (isTraining : Bool) (n : EnvironmentInputNode) :
    ((∃ e, n.ReadOutVariable isTraining = .error e) ↔ n.m_propertyName ≠ "isTraining") ∧
    (n.ReadOutVariable isTraining = .error .invalidArgument ↔
      n.m_propertyName ≠ "isTraining") ∧
    (n.m_propertyName = "isTraining" → n.value.numRows = 1 → n.value.numCols = 1 →
      (n.ForwardPropNonLooping isTraining).1 = none ∧
      (n.ForwardPropNonLooping isTraining).2.value.get 0 0 = (if isTraining then 1 else 0) ∧
      (n.ForwardPropNonLooping isTraining).2.value.numRows = 1 ∧
      (n.ForwardPropNonLooping isTraining).2.value.numCols = 1 ∧
      (n.ForwardPropNonLooping isTraining).2.m_propertyName = "isTraining" ∧
      ∀ later : Bool,
        ((n.ForwardPropNonLooping isTraining).2.ForwardPropNonLooping later).1 = none ∧
        ((n.ForwardPropNonLooping isTraining).2.ForwardPropNonLooping later).2.value.get 0 0 =
          (if later then 1 else 0)) ∧
    n.IsOutOfDateWrtInputs = true := by
  have hfwd : ∀ (m : EnvironmentInputNode) (b : Bool), m.m_propertyName = "isTraining" →
      m.value.numRows = 1 → m.value.numCols = 1 →
      m.ForwardPropNonLooping b =
        (none, { m with value := m.value.SetValue (if b then 1 else 0) }) := by
    intro m b hn hr hc
    simp [EnvironmentInputNode.ForwardPropNonLooping, EnvironmentInputNode.ReadOutVariable,
      EnvironmentInputNode.VerifySize, hn, hr, hc]
  have hget : ∀ (m : Matrix) (v : Int), m.numRows = 1 → m.numCols = 1 →
      (m.SetValue v).get 0 0 = v := by
    intro m v hr hc
    simp [Matrix.get, Matrix.SetValue, hr, hc]
  refine ⟨?_, ?_, ?_, rfl⟩
  · by_cases hn : n.m_propertyName = "isTraining"
    · simp [EnvironmentInputNode.ReadOutVariable, hn]
    · simp [EnvironmentInputNode.ReadOutVariable, hn]
  · by_cases hn : n.m_propertyName = "isTraining"
    · simp [EnvironmentInputNode.ReadOutVariable, hn]
    · simp [EnvironmentInputNode.ReadOutVariable, hn]
  · intro hn hr hc
    have h1 := hfwd n isTraining hn hr hc
    have hn1 : (n.ForwardPropNonLooping isTraining).2.m_propertyName = "isTraining" := by
      rw [h1]; exact hn
    have hr1 : (n.ForwardPropNonLooping isTraining).2.value.numRows = 1 := by
      rw [h1]; exact hr
    have hc1 : (n.ForwardPropNonLooping isTraining).2.value.numCols = 1 := by
      rw [h1]; exact hc
    refine ⟨by rw [h1], by rw [h1]; exact hget _ _ hr hc, hr1, hc1, hn1, ?_⟩
    intro later
    rw [hfwd _ later hn1 hr1 hc1]
    exact ⟨rfl, hget _ _ hr1 hc1⟩

/-- C9, witness: a node holding 7 is overwritten with the flag, call after call. -/
theorem EnvironmentInput_reads_flag_witness :
    (sampleEnvironmentNode.m_propertyName = "isTraining" ∧
      sampleEnvironmentNode.value.numRows = 1 ∧ sampleEnvironmentNode.value.numCols = 1) ∧
    (sampleEnvironmentNode.ForwardPropNonLooping true).1 = none ∧
    (sampleEnvironmentNode.ForwardPropNonLooping true).2.value.get 0 0 = 1 ∧
    ((sampleEnvironmentNode.ForwardPropNonLooping true).2.ForwardPropNonLooping false).2.value.get
      0 0 = 0 :=
  have h := (EnvironmentInput_reads_flag true sampleEnvironmentNode).2.2.1
    (by decide) (by decide) (by decide)
  ⟨⟨by decide, by decide, by decide⟩, h.1, h.2.1, (h.2.2.2.2.2 false).2⟩

theorem SenoneMap_any_iff (m : SenoneMap) (key : String) :
    m.any (fun e => e.1 == key) = true ↔ key ∈ m.map Prod.fst := by
  simp only [List.any_eq_true, beq_iff_eq, List.mem_map]

theorem readSenoneLoop_spec (rest : List String) :
    ∀ (snum : Nat) (m : SenoneMap),
      (∀ l ∈ rest, l.utf8ByteSize < 1000) → snum + rest.length < 2 ^ 31 →
      (FreshKeys m (rest.map senoneKey) →
        ∀ ndebug, readSenoneLoop ndebug rest snum m =
          .ok (m ++ ((rest.map senoneKey).enumFrom snum).map (fun p => (p.2, (p.1 : Int))))) ∧
      (¬ FreshKeys m (rest.map senoneKey) →
        readSenoneLoop false rest snum m = .error .assertionFailure) := by
  induction rest with
  | nil =>
    intro snum m _ _
    refine ⟨fun _ _ => by simp [readSenoneLoop], fun h => absurd ?_ h⟩
    exact ⟨List.nodup_nil, fun k hk => by simp at hk⟩
  | cons label rest ih =>
    intro snum m hlen hnum
    have hl : ¬ 1000 ≤ label.utf8ByteSize := by
      have := hlen label (List.mem_cons_self _ _); omega
    have hlen1 : ∀ l ∈ rest, l.utf8ByteSize < 1000 :=
      fun l h => hlen l (List.mem_cons_of_mem _ h)
    have hnum1 : (snum + 1) + rest.length < 2 ^ 31 := by
      simp only [List.length_cons] at hnum; omega
    have hov : ¬ ((snum : Int) = 2 ^ 31 - 1) := by
      simp only [List.length_cons] at hnum; omega
    have hcast : ((snum : Int) + 1) = ((snum + 1 : Nat) : Int) := by push_cast; rfl
    by_cases hin : senoneKey label ∈ m.map Prod.fst
    · -- the key is already in the map
      have hany : m.any (fun e => e.1 == senoneKey label) = true :=
        (SenoneMap_any_iff m _).2 hin
      refine ⟨fun hf => absurd hin (hf.2 _ (List.mem_cons_self _ _)), fun _ => ?_⟩
      simp [readSenoneLoop, hl, SenoneMap.count, hany]
    · have hany : m.any (fun e => e.1 == senoneKey label) = false := by
        cases h : m.any (fun e => e.1 == senoneKey label)
        · rfl
        · exact absurd ((SenoneMap_any_iff m _).1 h) hin
      have hstep : ∀ ndebug, readSenoneLoop ndebug (label :: rest) snum m =
          readSenoneLoop ndebug rest ((snum + 1 : Nat) : Int)
            (m ++ [(senoneKey label, (snum : Int))]) := by
        intro ndebug
        rw [readSenoneLoop]
        simp only [SenoneMap.count, SenoneMap.assign, hany, if_neg hl, if_neg hov, hcast]
        simp
      obtain ⟨ihok, ihfail⟩ := ih (snum + 1) (m ++ [(senoneKey label, (snum : Int))])
        hlen1 hnum1
      have hfresh : FreshKeys m ((label :: rest).map senoneKey) ↔
          FreshKeys (m ++ [(senoneKey label, (snum : Int))]) (rest.map senoneKey) := by
        simp only [FreshKeys, List.map_cons, List.nodup_cons, List.mem_cons, List.map_append,
          List.map_nil, List.mem_append, List.mem_singleton, forall_eq_or_imp, List.not_mem_nil,
          or_false]
        constructor
        · rintro ⟨⟨h1, h2⟩, _, h4⟩
          refine ⟨h2, fun k hk hor => ?_⟩
          rcases hor with h | h
          · exact h4 k hk h
          · exact h1 (h ▸ hk)
        · rintro ⟨h2, h4⟩
          refine ⟨⟨fun hk => h4 _ hk (Or.inr rfl), h2⟩, hin, fun k hk hm => h4 k hk (Or.inl hm)⟩
      refine ⟨fun hf ndebug => ?_, fun hf => ?_⟩
      · rw [hstep, ihok (hfresh.1 hf) ndebug]
        simp [List.enumFrom_cons]
      · rw [hstep, ihfail (fun h => hf (hfresh.2 h))]

/-- C10. `Read_senone_map` on an empty map. In a build that checks assertions, for
labels shorter than the 1000-byte buffer and fewer than 2^31 of them, the call fails,
and then on the `assert`, exactly when two labels give the same key, and otherwise the
map holds one entry per label with the i-th key at index i. In a build with `NDEBUG`
the `assert` is compiled out: the file with the two labels `a` and `a` is accepted, the
map has a single entry and it carries index 1, so index 0 is not assigned. -/
theorem Read_senone_map_duplicates :
    (∀ labels : List String,
      (∀ l ∈ labels, l.utf8ByteSize < 1000) → labels.length < 2 ^ 31 →
      (Read_senone_map false labels [] = .error .assertionFailure ↔
        ¬ (labels.map senoneKey).Nodup) ∧
      ((∃ e, Read_senone_map false labels [] = .error e) ↔
        ¬ (labels.map senoneKey).Nodup) ∧
      ((labels.map senoneKey).Nodup →
        Read_senone_map false labels [] =
          .ok ((labels.map senoneKey).enum.map (fun p => (p.2, (p.1 : Int)))))) ∧
    (Read_senone_map false ["a", "a"] [] = .error .assertionFailure ∧
      Read_senone_map true ["a", "a"] [] = .ok [("[a]", 1)]) := by
  refine ⟨fun labels hlen hnum => ?_, ⟨rfl, rfl⟩⟩
  obtain ⟨hok, hfail⟩ := readSenoneLoop_spec labels 0 [] hlen (by omega)
  have hfresh : FreshKeys [] (labels.map senoneKey) ↔ (labels.map senoneKey).Nodup := by
    simp [FreshKeys]
  have hok1 : (labels.map senoneKey).Nodup →
      Read_senone_map false labels [] =
        .ok ((labels.map senoneKey).enum.map (fun p => (p.2, (p.1 : Int)))) := by
    intro h
    have := hok (hfresh.2 h) false
    simpa [Read_senone_map, List.enum] using this
  have hfail1 : ¬ (labels.map senoneKey).Nodup →
      Read_senone_map false labels [] = .error .assertionFailure := by
    intro h
    have := hfail (fun hf => h (hfresh.1 hf))
    simpa [Read_senone_map] using this
  refine ⟨⟨fun h hnd => ?_, hfail1⟩, ⟨?_, fun h => ⟨_, hfail1 h⟩⟩, hok1⟩
  · rw [hok1 hnd] at h; cases h
  · rintro ⟨e, h⟩ hnd
    rw [hok1 hnd] at h; cases h

/-- C10, witness: three labels with different keys get the indices 0, 1, 2. -/
theorem Read_senone_map_duplicates_witness :
    ((∀ l ∈ ["sil.1", "aa_b", "zh"], l.utf8ByteSize < 1000) ∧
      (["sil.1", "aa_b", "zh"].map senoneKey).Nodup) ∧
    Read_senone_map false ["sil.1", "aa_b", "zh"] [] =
      .ok ((["sil.1", "aa_b", "zh"].map senoneKey).enum.map (fun p => (p.2, (p.1 : Int)))) :=
  ⟨⟨by decide, by decide⟩,
    (Read_senone_map_duplicates.1 ["sil.1", "aa_b", "zh"] (by decide) (by decide)).2.2
      (by decide)⟩

theorem SenoneMap_count_eq_zero_iff (m : SenoneMap) (key : String) :
    m.count key = 0 ↔ key ∉ m.map Prod.fst := by
  rw [← SenoneMap_any_iff]
  unfold SenoneMap.count
  cases m.any (fun e => e.1 == key) <;> simp

theorem SenoneMap_subscript_present (m : SenoneMap) (key : String)
    (h : m.count key ≠ 0) : (m.subscript key).2 = m := by
  unfold SenoneMap.subscript
  cases hf : m.find key with
  | some v => rfl
  | none =>
    exfalso
    apply h
    rw [SenoneMap_count_eq_zero_iff]
    intro hin
    obtain ⟨e, he, hk⟩ := List.mem_map.1 hin
    unfold SenoneMap.find at hf
    rw [Option.map_eq_none', List.find?_eq_none] at hf
    exact hf e he (by simp [hk])

theorem loadTfstLine_map (conv : Conversions) (line : String) (s : TfstState) :
    (loadTfstLine false conv line s).2.idx4senone = s.idx4senone := by
  unfold loadTfstLine
  simp only []
  repeat' split
  all_goals first
    | rfl
    | (rename_i h2
       simp only [pushArc]
       exact SenoneMap_subscript_present _ _ (fun h0 => h2 ⟨trivial, h0⟩))

theorem loadTfstLine_absent (conv : Conversions) (line : String) (s : TfstState)
    (f3 : String) (h3 : (fieldsOf line)[2]? = some f3)
    (habs : f3 ∉ s.idx4senone.map Prod.fst) :
    (loadTfstLine false conv line s).1 ≠ none := by
  have hcount : s.idx4senone.count f3 = 0 := (SenoneMap_count_eq_zero_iff _ _).2 habs
  rcases hfl : fieldsOf line with _ | ⟨f1, _ | ⟨f2, _ | ⟨g3, r⟩⟩⟩
  · rw [hfl] at h3; simp at h3
  · rw [hfl] at h3; simp at h3
  · rw [hfl] at h3; simp at h3
  · rw [hfl] at h3
    have hg : g3 = f3 := by simpa using h3
    subst hg
    have ht : List.take 4 (f1 :: f2 :: g3 :: r) = f1 :: f2 :: g3 :: List.take 1 r := rfl
    unfold loadTfstLine
    simp only [hfl, ht, hcount, and_true]
    repeat' split
    all_goals first
      | (rename_i h; exact absurd trivial h)
      | simp

theorem loadTfstLoop_map (conv : Conversions) (lines : List String) :
    ∀ s : TfstState, (loadTfstLoop false conv lines s).2.idx4senone = s.idx4senone := by
  induction lines with
  | nil => intro s; rfl
  | cons line rest ih =>
    intro s
    rw [loadTfstLoop]
    split_ifs
    · exact ih s
    · have hm := loadTfstLine_map conv line s
      split
      · rename_i e s1 heq
        rw [heq] at hm; exact hm
      · rename_i s1 heq
        rw [heq] at hm
        rw [ih s1]; exact hm

theorem loadTfstLoop_absent (conv : Conversions) (lines : List String) :
    ∀ s : TfstState,
      (∃ line ∈ lines, line.data.head? ≠ some '#' ∧
        ∃ f3, (fieldsOf line)[2]? = some f3 ∧ f3 ∉ s.idx4senone.map Prod.fst) →
      (loadTfstLoop false conv lines s).1 ≠ none := by
  induction lines with
  | nil => intro s ⟨line, hmem, _⟩; simp at hmem
  | cons line rest ih =>
    intro s ⟨bad, hmem, hnc, f3, h3, habs⟩
    rw [loadTfstLoop]
    rcases List.mem_cons.1 hmem with hb | hb
    · subst hb
      rw [if_neg hnc]
      have hne := loadTfstLine_absent conv bad s f3 h3 habs
      split
      · simp
      · rename_i s1 heq
        rw [heq] at hne
        exact absurd rfl hne
    · split_ifs
      · exact ih s ⟨bad, hb, hnc, f3, h3, habs⟩
      · have hm := loadTfstLine_map conv line s
        split
        · simp
        · rename_i s1 heq
          rw [heq] at hm
          exact ih s1 ⟨bad, hb, hnc, f3, h3, by rw [hm]; exact habs⟩

/-- C11. `LoadTfstFile` and a senone label that is not in the map. In a build that
checks assertions the call fails for every arc file with a line that is not a comment
and whose third field is not a key of the map passed in, and the map is never changed.
In a build with `NDEBUG` the `assert` is compiled out: for the one-line file
`0 1 [x] 0.5` and an empty map the call returns normally, the arc has been given the
senone index 0, and the label `[x]` has been added to the map. -/
theorem LoadTfstFile_absent_label :
    (∀ (conv : Conversions) (lines : List String) (m : SenoneMap),
      (∃ line ∈ lines, line.data.head? ≠ some '#' ∧
        ∃ f3, (fieldsOf line)[2]? = some f3 ∧ f3 ∉ m.map Prod.fst) →
      (LoadTfstFile false conv lines m).1 ≠ none) ∧
    (∀ (conv : Conversions) (lines : List String) (m : SenoneMap),
      (LoadTfstFile false conv lines m).2.idx4senone = m) ∧
    (LoadTfstFile false plainConversions ["0 1 [x] 0.5"] [] =
        (some .assertionFailure, ⟨[], 0, []⟩) ∧
      LoadTfstFile true plainConversions ["0 1 [x] 0.5"] [] =
        (none, ⟨[⟨0, some 1, 0, some "0.5"⟩], 0, [("[x]", 0)]⟩)) := by
  refine ⟨fun conv lines m h => ?_, fun conv lines m => ?_, ⟨rfl, rfl⟩⟩
  · exact loadTfstLoop_absent conv lines ⟨[], 0, m⟩ h
  · exact loadTfstLoop_map conv lines ⟨[], 0, m⟩

/-- C11, witness: a two-line file whose second line names a label the map lacks. -/
theorem LoadTfstFile_absent_label_witness :
    (∃ line ∈ ["0 1 [a] 0.5", "1 2 [x]"], line.data.head? ≠ some '#' ∧
      ∃ f3, (fieldsOf line)[2]? = some f3 ∧ f3 ∉ [("[a]", (0 : Int))].map Prod.fst) ∧
    (LoadTfstFile false plainConversions ["0 1 [a] 0.5", "1 2 [x]"] [("[a]", 0)]).1 ≠ none :=
  have h : ∃ line ∈ ["0 1 [a] 0.5", "1 2 [x]"], line.data.head? ≠ some '#' ∧
      ∃ f3, (fieldsOf line)[2]? = some f3 ∧ f3 ∉ [("[a]", (0 : Int))].map Prod.fst :=
    ⟨"1 2 [x]", by simp, by decide, "[x]", by rfl, by decide⟩
  ⟨h, LoadTfstFile_absent_label.1 plainConversions _ _ h⟩

theorem replaceFirstDot_no_dot (l : List Char) (h : '.' ∉ l) : replaceFirstDot l = l := by
  induction l with
  | nil => rfl
  | cons c cs ih =>
    have hc : c ≠ '.' := fun e => h (e ▸ List.mem_cons_self _ _)
    rw [replaceFirstDot, if_neg hc, ih (fun hm => h (List.mem_cons_of_mem _ hm))]

theorem replaceFirstDot_first (pre post : List Char) (h : '.' ∉ pre) :
    replaceFirstDot (pre ++ '.' :: post) = pre ++ '_' :: post := by
  induction pre with
  | nil => simp [replaceFirstDot]
  | cons c cs ih =>
    have hc : c ≠ '.' := fun e => h (e ▸ List.mem_cons_self _ _)
    rw [List.cons_append, replaceFirstDot, if_neg hc,
      ih (fun hm => h (List.mem_cons_of_mem _ hm)), List.cons_append]

theorem replaceEveryDot_no_dot (l : List Char) (h : '.' ∉ l) : replaceEveryDot l = l := by
  induction l with
  | nil => rfl
  | cons c cs ih =>
    have hc : c ≠ '.' := fun e => h (e ▸ List.mem_cons_self _ _)
    have ih1 := ih (fun hm => h (List.mem_cons_of_mem _ hm))
    unfold replaceEveryDot at ih1 ⊢
    rw [List.map_cons, if_neg hc, ih1]

/-- C12 (amended). `Read_senone_map` stores each label of at most 999 bytes under the
key made of `[`, the label with its first `.` (and only the first) replaced by `_`, and
`]`: the key of a label without a dot is the bracketed label, the key of
`pre.post` with no dot in `pre` is `[pre_post]` whatever `post` holds, and labels with
pairwise different keys are entered under these keys with their positions as indices,
in both builds; the label `a.b.c` is stored under `[a_b.c]`. For a label with at most
one dot this is the key with every dot replaced. -/
theorem Read_senone_map_key :
    (∀ l : List Char, '.' ∉ l → senoneKey (String.mk l) = "[" ++ String.mk l ++ "]") ∧
    (∀ pre post : List Char, '.' ∉ pre →
      senoneKey (String.mk (pre ++ '.' :: post)) = "[" ++ String.mk (pre ++ '_' :: post) ++ "]") ∧
    (∀ pre post : List Char, '.' ∉ pre → '.' ∉ post →
      senoneKey (String.mk (pre ++ '.' :: post)) =
        "[" ++ String.mk (replaceEveryDot (pre ++ '.' :: post)) ++ "]") ∧
    (∀ (ndebug : Bool) (labels : List String),
      (∀ l ∈ labels, l.utf8ByteSize ≤ 999) → labels.length < 2 ^ 31 →
      (labels.map senoneKey).Nodup →
      Read_senone_map ndebug labels [] =
        .ok (labels.enum.map (fun p => (senoneKey p.2, (p.1 : Int))))) ∧
    (senoneKey "a.b.c" = "[a_b.c]" ∧
      Read_senone_map false ["a.b.c"] [] = .ok [("[a_b.c]", 0)] ∧
      Read_senone_map true ["a.b.c"] [] = .ok [("[a_b.c]", 0)]) := by
  refine ⟨fun l h => ?_, fun pre post h => ?_, fun pre post h1 h2 => ?_,
    fun ndebug labels hlen hnum hnd => ?_, ⟨by decide, rfl, rfl⟩⟩
  · simp only [senoneKey, replaceFirstDot_no_dot l h]
  · simp only [senoneKey, replaceFirstDot_first pre post h]
  · simp only [senoneKey, replaceFirstDot_first pre post h1]
    have e : replaceEveryDot (pre ++ '.' :: post) = pre ++ '_' :: post := by
      have e1 := replaceEveryDot_no_dot pre h1
      have e2 := replaceEveryDot_no_dot post h2
      unfold replaceEveryDot at e1 e2 ⊢
      rw [List.map_append, List.map_cons, e1, e2, if_pos rfl]
    rw [e]
  · obtain ⟨hok, _⟩ := readSenoneLoop_spec labels 0 []
      (fun l hl => by have := hlen l hl; omega) (by omega)
    have := hok ⟨hnd, fun k _ => by simp⟩ ndebug
    simpa [Read_senone_map, List.enum, List.enumFrom_map, Function.comp] using this

/-- C12, witness: three labels, one of them with two dots. -/
theorem Read_senone_map_key_witness :
    ((∀ l ∈ ["sil.1", "a.b.c", "zh"], l.utf8ByteSize ≤ 999) ∧
      (["sil.1", "a.b.c", "zh"].map senoneKey).Nodup) ∧
    Read_senone_map true ["sil.1", "a.b.c", "zh"] [] =
      .ok (["sil.1", "a.b.c", "zh"].enum.map (fun p => (senoneKey p.2, (p.1 : Int)))) :=
  ⟨⟨by decide, by decide⟩,
    Read_senone_map_key.2.2.2.1 true ["sil.1", "a.b.c", "zh"] (by decide) (by decide)
      (by decide)⟩

/-- C12, counterexample to the claim as stated: the label `a.b.c` has 5 bytes, the key
with every dot replaced is `[a_b_c]`, and `Read_senone_map` stores the label under
`[a_b.c]`. -/
theorem Read_senone_map_key_counterexample :
    "a.b.c".utf8ByteSize ≤ 999 ∧
    "[" ++ String.mk (replaceEveryDot "a.b.c".data) ++ "]" = "[a_b_c]" ∧
    senoneKey "a.b.c" ≠ "[a_b_c]" ∧
    Read_senone_map false ["a.b.c"] [] = .ok [("[a_b.c]", 0)] ∧
    SenoneMap.find [("[a_b.c]", 0)] "[a_b_c]" = none := by
  refine ⟨by decide, by decide, by decide, rfl, by decide⟩

/-- C13. The derived `wordsInEachSample` can be 0. For `cols0 >= 1` and `rows1` within
the `int` range, `LookupTableNode::ForwardProp` divides by zero exactly when
`rows1 = 0`: then `cols0 * (rows1 / cols0) == rows1` holds, `wordsInEachSample` is 0
and `rows1 / wordsInEachSample` is evaluated. `Validate` accepts `rows1 = 0` on the
final pass as well and declares 0 output rows. For `rows1 >= 1` a value that passes
the check gives `wordsInEachSample >= 1`. -/
theorem ForwardProp_zero_rows :
    (∀ fv E X : Matrix, 1 ≤ E.numCols → X.numRows < 2 ^ 31 →
      ((ForwardProp fv E X).1 = some Err.divideByZero ↔ X.numRows = 0)) ∧
    (∀ rows0 cols0 : Nat, 1 ≤ cols0 →
      0 % cols0 = 0 ∧ cols0 * (0 / cols0) = 0 ∧ 0 / cols0 = 0 ∧
      Validate true true rows0 cols0 0 = .ok ⟨TensorShape.vector 0, true⟩) ∧
    (∀ cols0 rows1 : Nat, 1 ≤ cols0 → 1 ≤ rows1 → rows1 < 2 ^ 31 →
      cols0 * (rows1 / cols0) = rows1 →
      1 ≤ rows1 / cols0 ∧ toSizeT (narrowToInt (rows1 / cols0)) = rows1 / cols0) ∧
    (ForwardProp (Matrix.zeros 0 2) sampleInput0 (Matrix.zeros 0 2)).1 =
      some Err.divideByZero := by
  refine ⟨fun fv E X h0 hr => ?_, fun rows0 cols0 h0 => ?_, fun cols0 rows1 h0 h1 hr hchk => ?_,
    by decide⟩
  · have hc0 : E.numCols ≠ 0 := by omega
    have hq : X.numRows / E.numCols < 2 ^ 31 := lt_of_le_of_lt (Nat.div_le_self _ _) hr
    have hn := narrow_small _ hq
    have hm : mulSizeT E.numCols (X.numRows / E.numCols) =
        E.numCols * (X.numRows / E.numCols) :=
      Nat.mod_eq_of_lt (by have := Nat.mul_div_le X.numRows E.numCols; omega)
    by_cases hchk : E.numCols * (X.numRows / E.numCols) = X.numRows
    · have hne : ¬ (E.numCols * (X.numRows / E.numCols) ≠ X.numRows) := fun h => h hchk
      have hz : X.numRows / E.numCols = 0 ↔ X.numRows = 0 := by
        constructor
        · intro h; rw [h, Nat.mul_zero] at hchk; exact hchk.symm
        · intro h; rw [h, Nat.zero_div]
      simp only [ForwardProp, if_neg hc0, hn, hm, hne, if_false]
      by_cases hw : X.numRows / E.numCols = 0
      · rw [if_pos hw]
        exact ⟨fun _ => hz.1 hw, fun _ => rfl⟩
      · rw [if_neg hw]
        refine ⟨fun h => ?_, fun h => absurd (hz.2 h) hw⟩
        exfalso
        revert h
        split
        · rename_i e heq
          rw [Reshaped_error heq]; simp
        · split
          · rename_i e heq
            rw [Reshaped_error heq]; simp
          · split
            · rename_i e heq
              rw [AssignProductOf_error heq]; simp
            · simp
    · have hpos : X.numRows ≠ 0 := by
        intro h
        apply hchk
        rw [h, Nat.zero_div, Nat.mul_zero]
      have hl : (ForwardProp fv E X).1 = some Err.logicError := by
        simp only [ForwardProp, if_neg hc0, hn, hm, ne_eq, hchk, not_false_eq_true, if_true]
      rw [hl]
      exact ⟨fun h => (by cases h), fun h => absurd h hpos⟩
  · have hc0 : cols0 ≠ 0 := by omega
    refine ⟨Nat.zero_mod _, by simp, Nat.zero_div _, ?_⟩
    simp [Validate, hc0, mulSizeT]
  · have hq : rows1 / cols0 ≠ 0 := by
      intro h
      rw [h, Nat.mul_zero] at hchk
      omega
    exact ⟨Nat.one_le_iff_ne_zero.2 hq,
      narrow_small _ (lt_of_le_of_lt (Nat.div_le_self _ _) hr)⟩

/-- C13, witness: an index slice without rows against an embedding matrix of three
columns. -/
theorem ForwardProp_zero_rows_witness :
    (1 ≤ sampleInput0.numCols ∧ (Matrix.zeros 0 2).numRows < 2 ^ 31 ∧
      (Matrix.zeros 0 2).numRows = 0) ∧
    (ForwardProp (Matrix.zeros 0 2) sampleInput0 (Matrix.zeros 0 2)).1 =
      some Err.divideByZero :=
  ⟨⟨by decide, by decide, rfl⟩,
    (ForwardProp_zero_rows.1 (Matrix.zeros 0 2) sampleInput0 (Matrix.zeros 0 2)
      (by decide) (by decide)).2 rfl⟩

end CNTK
